import Mathlib

/-
Verification of the cdecl repository's specification against its sources.

The development shallowly embeds the parts of the code the claims are about:

  * the 64-bit type-identifier constants of src/src/c_type.h;
  * the type-merging operation c_type_add (modelled from the spec, since
    c_type.c is not among the repository's files; only its declaration in
    src/src/c_type.h is);
  * the placeholder-patching operation c_ast_patch_placeholder (modelled from
    the spec, since c_ast_util.c is not among the repository's files; only its
    declaration in src/src/c_ast_util.h is);
  * the token-graphing function graph_token_c of src/src/gibberish.c;
  * the gibberish printer (g_print_ast and friends) of src/src/gibberish.c;
  * the English printer (c_ast_visitor_english) of src/english.c;
  * the edit-distance function dam_lev_dist of src/dam_lev.c.

Machine integers are embedded as Nat (the C values are 64-bit bitsets whose
operations here are pure bit operations that cannot overflow).
-/

namespace Cdecl

/-! Type-identifier bit constants, transcribed from src/src/c_type.h. -/

def T_NONE                : Nat := 0
def T_VOID                : Nat := 0x0000000000000001
def T_AUTO_TYPE           : Nat := 0x0000000000000002
def T_BOOL                : Nat := 0x0000000000000004
def T_CHAR                : Nat := 0x0000000000000008
def T_CHAR8_T             : Nat := 0x0000000000000010
def T_CHAR16_T            : Nat := 0x0000000000000020
def T_CHAR32_T            : Nat := 0x0000000000000040
def T_WCHAR_T             : Nat := 0x0000000000000080
def T_SHORT               : Nat := 0x0000000000000100
def T_INT                 : Nat := 0x0000000000000200
def T_LONG                : Nat := 0x0000000000000400
def T_LONG_LONG           : Nat := 0x0000000000000800
def T_SIGNED              : Nat := 0x0000000000001000
def T_UNSIGNED            : Nat := 0x0000000000002000
def T_FLOAT               : Nat := 0x0000000000004000
def T_DOUBLE              : Nat := 0x0000000000008000
def T_COMPLEX             : Nat := 0x0000000000010000
def T_IMAGINARY           : Nat := 0x0000000000020000
def T_ENUM                : Nat := 0x0000000000040000
def T_STRUCT              : Nat := 0x0000000000080000
def T_UNION               : Nat := 0x0000000000100000
def T_CLASS               : Nat := 0x0000000000200000
def T_NAMESPACE           : Nat := 0x0000000000400000
def T_SCOPE               : Nat := 0x0000000000800000
def T_TYPEDEF_TYPE        : Nat := 0x0000000001000000

def T_AUTO_STORAGE        : Nat := 0x0000000010000000
def T_APPLE_BLOCK         : Nat := 0x0000000020000000
def T_EXTERN              : Nat := 0x0000000040000000
def T_MUTABLE             : Nat := 0x0000000080000000
def T_REGISTER            : Nat := 0x0000000100000000
def T_STATIC              : Nat := 0x0000000200000000
def T_THREAD_LOCAL        : Nat := 0x0000000400000000
def T_TYPEDEF             : Nat := 0x0000000800000000

def T_CONSTEVAL           : Nat := 0x0000001000000000
def T_CONSTEXPR           : Nat := 0x0000002000000000
def T_DEFAULT             : Nat := 0x0000004000000000
def T_DELETE              : Nat := 0x0000008000000000
def T_EXPLICIT            : Nat := 0x0000010000000000
def T_FINAL               : Nat := 0x0000020000000000
def T_FRIEND              : Nat := 0x0000040000000000
def T_INLINE              : Nat := 0x0000080000000000
def T_NOEXCEPT            : Nat := 0x0000100000000000
def T_OVERRIDE            : Nat := 0x0000200000000000
def T_PURE_VIRTUAL        : Nat := 0x0000400000000000
def T_THROW               : Nat := 0x0000800000000000
def T_VIRTUAL             : Nat := 0x0001000000000000

def T_CARRIES_DEPENDENCY  : Nat := 0x0002000000000000
def T_DEPRECATED          : Nat := 0x0004000000000000
def T_MAYBE_UNUSED        : Nat := 0x0008000000000000
def T_NODISCARD           : Nat := 0x0010000000000000
def T_NORETURN            : Nat := 0x0020000000000000

def T_ATOMIC              : Nat := 0x0100000000000000
def T_CONST               : Nat := 0x0200000000000000
def T_RESTRICT            : Nat := 0x0400000000000000
def T_VOLATILE            : Nat := 0x0800000000000000

def T_REFERENCE           : Nat := 0x1000000000000000
def T_RVALUE_REFERENCE    : Nat := 0x2000000000000000

def T_MASK_TYPE           : Nat := 0x000000000FFFFFFF
def T_MASK_STORAGE        : Nat := 0x0001FFFFF0000000
def T_MASK_ATTRIBUTE      : Nat := 0x003E000000000000
def T_MASK_QUALIFIER      : Nat := 0x0F00000000000000
def T_MASK_REF_QUALIFIER  : Nat := 0xF000000000000000

def T_MASK_QUAL_OLD       : Nat := T_MASK_QUALIFIER

/-- Shorthand from src/src/c_type.h: the types that can apply only to members. -/
def T_MEMBER_ONLY : Nat :=
  T_CONST ||| T_VOLATILE ||| T_DEFAULT ||| T_DELETE ||| T_OVERRIDE ||| T_FINAL |||
  T_VIRTUAL ||| T_REFERENCE ||| T_RESTRICT ||| T_RVALUE_REFERENCE

/-- The five sector bitmasks of the 64-bit type identifier (src/src/c_type.h,
lines 127-132). -/
def sectorMasks : List Nat :=
  [T_MASK_TYPE, T_MASK_STORAGE, T_MASK_ATTRIBUTE, T_MASK_QUALIFIER,
   T_MASK_REF_QUALIFIER]

/-- Every single-bit T_ constant declared in src/src/c_type.h (lines 58-125). -/
def allTypeBits : List Nat :=
  [T_VOID, T_AUTO_TYPE, T_BOOL, T_CHAR, T_CHAR8_T, T_CHAR16_T, T_CHAR32_T,
   T_WCHAR_T, T_SHORT, T_INT, T_LONG, T_LONG_LONG, T_SIGNED, T_UNSIGNED,
   T_FLOAT, T_DOUBLE, T_COMPLEX, T_IMAGINARY, T_ENUM, T_STRUCT, T_UNION,
   T_CLASS, T_NAMESPACE, T_SCOPE, T_TYPEDEF_TYPE,
   T_AUTO_STORAGE, T_APPLE_BLOCK, T_EXTERN, T_MUTABLE, T_REGISTER, T_STATIC,
   T_THREAD_LOCAL, T_TYPEDEF,
   T_CONSTEVAL, T_CONSTEXPR, T_DEFAULT, T_DELETE, T_EXPLICIT, T_FINAL,
   T_FRIEND, T_INLINE, T_NOEXCEPT, T_OVERRIDE, T_PURE_VIRTUAL, T_THROW,
   T_VIRTUAL,
   T_CARRIES_DEPENDENCY, T_DEPRECATED, T_MAYBE_UNUSED, T_NODISCARD, T_NORETURN,
   T_ATOMIC, T_CONST, T_RESTRICT, T_VOLATILE,
   T_REFERENCE, T_RVALUE_REFERENCE]

/-! The type-merging operation, claim C3.  The implementation file c_type.c is
not among the repository's files; only the declaration and its documentation
in src/src/c_type.h (lines 237-251) are.  The operation is therefore modelled
from the spec. -/

/-- The storage classes proper (spec 3.1: "Storage class (bits 28-35)"),
distinct from the storage-class-like bits 36-48. -/
def T_MASK_STORAGE_PROPER : Nat := 0x0000000FF0000000

/-- Modelled from the spec: `c_type_add` of the missing c_type.c (only its
declaration in src/src/c_type.h, lines 237-251, is in the repository).
Spec 4.1: "add(dest, new, location) -> ok | conflict: merges new into dest.
Rule: each sector is combined by bitwise OR; long | long legally promotes to
long long; long long | long fails (no long long long); signed | unsigned
fails; float | int fails; combining two different storage classes fails;
combining typedef with another storage class fails", and the header's own
documentation: "ensuring that a particular type is never added more than
once".  `none` is the C function's `false` (conflict); `some t` is `true`
with `*dest_type` left equal to `t`.  The long rule: adding `long` to a
dest already holding `long long` is the conflict "long long | long fails
(no long long long)"; adding `long` to a dest holding `long` (and not yet
`long long`) promotes, replacing the `long` bit with `long long` — so a
third `long` hits the first branch and fails. -/
def c_type_add (dest newt : Nat) : Option Nat :=
  if newt == T_LONG && dest &&& T_LONG_LONG != 0 then none
  else if newt == T_LONG && dest &&& T_LONG != 0 then
    some ((dest ^^^ T_LONG) ||| T_LONG_LONG)
  else if dest &&& newt != 0 then none
  else if (dest &&& T_SIGNED != 0 && newt &&& T_UNSIGNED != 0) ||
          (dest &&& T_UNSIGNED != 0 && newt &&& T_SIGNED != 0) then none
  else if (dest &&& T_FLOAT != 0 && newt &&& T_INT != 0) ||
          (dest &&& T_INT != 0 && newt &&& T_FLOAT != 0) then none
  else if dest &&& T_MASK_STORAGE_PROPER != 0 &&
          newt &&& T_MASK_STORAGE_PROPER != 0 &&
          dest &&& T_MASK_STORAGE_PROPER != newt &&& T_MASK_STORAGE_PROPER then
    none
  else some (dest ||| newt)

/-! Placeholder patching, claim C4.  The implementation file c_ast_util.c is
not among the repository's files; only the declaration and its documented
contract in src/src/c_ast_util.h (lines 198-210) are.  The operation is
therefore modelled from the spec (3.3 and 4.3). -/

/-- Modelled from the spec: the AST shape needed by placeholder patching
(spec 3.3): a Placeholder, a non-placeholder leaf kind carrying its type
bits, or a parent kind carrying its type bits and its child ASTs in payload
order. -/
inductive PAst : Type where
  | placeholder : PAst
  | leaf (tid : Nat) : PAst
  | parent (tid : Nat) (children : List PAst) : PAst

mutual

/-- Whether a placeholder node occurs anywhere in the AST. -/
def PAst.hasPlaceholder : PAst → Bool
  | .placeholder => true
  | .leaf _ => false
  | .parent _ cs => hasPlaceholderList cs

/-- Whether a placeholder node occurs in any AST of the list. -/
def hasPlaceholderList : List PAst → Bool
  | [] => false
  | c :: cs => c.hasPlaceholder || hasPlaceholderList cs

end

mutual

/-- Modelled from the spec: "patch(type_ast, decl_ast) replaces every
Placeholder in decl_ast with type_ast" (spec 4.3) — the structural
replacement itself. -/
def substPlaceholder (t : PAst) : PAst → PAst
  | .placeholder => t
  | .leaf tid => .leaf tid
  | .parent tid cs => .parent tid (substPlaceholderList t cs)

/-- `substPlaceholder` mapped over a list of child ASTs. -/
def substPlaceholderList (t : PAst) : List PAst → List PAst
  | [] => []
  | c :: cs => substPlaceholder t c :: substPlaceholderList t cs

end

/-- An AST argument of `c_ast_patch_placeholder` together with the two pieces
of mutable-AST bookkeeping the patching conditions consult: the node's parse
depth (spec: "how many () deep", the `depth` field of `c_ast`) and whether
the node has a parent. -/
structure PatchedAst : Type where
  ast : PAst
  depth : Nat
  parented : Bool

/-- Modelled from the spec: `c_ast_patch_placeholder` of the missing
c_ast_util.c (only its declaration in src/src/c_ast_util.h, lines 198-210, is
in the repository).  It patches `type_ast` into `decl_ast` only if: type_ast
has no parent; the depth of type_ast is less than that of decl_ast; and
decl_ast still contains a node of kind K_PLACEHOLDER.  Otherwise both ASTs
are left unchanged and the declaration's AST is returned as is. -/
def c_ast_patch_placeholder (type_ast decl_ast : PatchedAst) : PAst :=
  if !type_ast.parented && decide (type_ast.depth < decl_ast.depth) &&
      decl_ast.ast.hasPlaceholder then
    substPlaceholder type_ast.ast decl_ast.ast
  else
    decl_ast.ast

/-! Language identifiers.  The header c_lang.h is not among the repository's
files; as in cdecl, a language identifier is modelled as a distinct bit, with
the bits in the dialect order the spec gives ("K&R C, C89, C95, C99, C11,
C17, C2x; and C++98/03/11/14/17/20/23"), so that the source's ordering
comparisons (`opt_lang >= LANG_C_95`) and mask tests are expressible. -/

def LANG_NONE   : Nat := 0
def LANG_C_KNR  : Nat := 0x0001
def LANG_C_89   : Nat := 0x0002
def LANG_C_95   : Nat := 0x0004
def LANG_C_99   : Nat := 0x0008
def LANG_C_11   : Nat := 0x0010
def LANG_C_17   : Nat := 0x0020
def LANG_C_2X   : Nat := 0x0040
def LANG_CPP_98 : Nat := 0x0080
def LANG_CPP_03 : Nat := 0x0100
def LANG_CPP_11 : Nat := 0x0200
def LANG_CPP_14 : Nat := 0x0400
def LANG_CPP_17 : Nat := 0x0800
def LANG_CPP_20 : Nat := 0x1000
def LANG_CPP_23 : Nat := 0x2000

/-- Mask of every C language bit. -/
def LANG_C_ANY : Nat := 0x007F

/-- Mask of every C++ language bit. -/
def LANG_CPP_ANY : Nat := 0x3F80

/-- Mask for C++17 and later (the source's LANG_CPP_MIN(17)). -/
def LANG_CPP_MIN_17 : Nat := LANG_CPP_17 ||| LANG_CPP_20 ||| LANG_CPP_23

/-- Mask for C++23 and later (the source's LANG_CPP_MIN(23)). -/
def LANG_CPP_MIN_23 : Nat := LANG_CPP_23

/-- The source's opt_lang_is_any(ids): does the active language's bit
intersect the given mask? -/
def lang_is_any (lang ids : Nat) : Bool := lang &&& ids != 0

/-! The token-graphing function, claim C5: graph_token_c of
src/src/gibberish.c, lines 1092-1138. -/

/-- The di/trigraph mode option (c_graph_t): GRAPH_NONE, GRAPH_DI or
GRAPH_TRI. -/
inductive CGraph : Type where
  | none : CGraph
  | di : CGraph
  | tri : CGraph
deriving DecidableEq, Repr

/-- The digraph switch of graph_token_c (src/src/gibberish.c, lines
1106-1112), on the token's first character and optional second character:
`some` is an early `return` of the digraph spelling, `none` falls through to
returning the token itself. -/
def digraphSubst (c0 : Char) (c1 : Option Char) : Option String :=
  if c0 = '#' then some (if c1 = some '#' then "%:%:" else "%:")
  else if c0 = '[' then some (if c1 = some '[' then "<:<:" else "<:")
  else if c0 = ']' then some (if c1 = some ']' then ":>:>" else ":>")
  else if c0 = Char.ofNat 123 then some "<%"
  else if c0 = Char.ofNat 125 then some "%>"
  else none

/-- The trigraph switch of graph_token_c (src/src/gibberish.c, lines
1117-1131).  The C sources spell the strings with an escaped `?` ("?\?=");
the strings themselves are plain "??=" etc. -/
def trigraphSubst (c0 : Char) (c1 : Option Char) : Option String :=
  if c0 = '#' then some "??="
  else if c0 = '[' then some (if c1 = some '[' then "??(??(" else "??(")
  else if c0 = ']' then some (if c1 = some ']' then "??)??)" else "??)")
  else if c0 = '\\' then some "??/"
  else if c0 = '^' then
    some (if c1 = some '=' then "??" ++ String.singleton (Char.ofNat 39) ++ "="
          else "??" ++ String.singleton (Char.ofNat 39))
  else if c0 = Char.ofNat 123 then some "??<"
  else if c0 = Char.ofNat 125 then some "??>"
  else if c0 = '|' then
    some (if c1 = some '=' then "??!="
          else if c1 = some '|' then "??!??!"
          else "??!")
  else if c0 = '~' then some "??-"
  else none

/-- graph_token_c (src/src/gibberish.c, lines 1092-1138): returns the
di/trigraph spelling of the token when di/trigraph mode is on and the active
language allows it; otherwise returns the token unchanged.  When alternative
tokens are in effect, the token is always returned unchanged. -/
def graph_token_c (alt_tokens : Bool) (graph : CGraph) (lang : Nat)
    (token : String) : String :=
  if alt_tokens then token
  else
    match graph with
    | .none => token
    | .di =>
      if LANG_C_95 ≤ lang then
        match token.data with
        | [] => token
        | c0 :: rest =>
          match digraphSubst c0 rest.head? with
          | some s => s
          | none => token
      else token
    | .tri =>
      if LANG_C_89 ≤ lang ∧ lang ≤ LANG_CPP_14 then
        match token.data with
        | [] => token
        | c0 :: rest =>
          match trigraphSubst c0 rest.head? with
          | some s => s
          | none => token
      else token

/-! The gibberish printer, claims C1, C6, C9, C10: src/src/gibberish.c.  That
file uses the split-type model of its era: a type is a triple of base-type
bits (btids), storage bits (stids) and attribute bits (atids).  The era's
c_type.h is not among the repository's files, so the TB_/TS_/TA_ constants
below reuse the corresponding sector values of src/src/c_type.h, which is in
the repository (each constant's value only needs to be a distinct bit of its
sector). -/

/-- The split type of gibberish.c's era: c_type_t. -/
structure CType : Type where
  btids : Nat
  stids : Nat
  atids : Nat
deriving DecidableEq, Repr

def TB_NONE      : Nat := 0
def TB_ENUM      : Nat := T_ENUM
def TB_STRUCT    : Nat := T_STRUCT
def TB_CLASS     : Nat := T_CLASS
def TB_UNION     : Nat := T_UNION
def TB_NAMESPACE : Nat := T_NAMESPACE
def TB_SCOPE     : Nat := T_SCOPE
def TB_TYPEDEF   : Nat := T_TYPEDEF_TYPE

def TS_NONE               : Nat := 0
def TS_DEFAULT            : Nat := T_DEFAULT
def TS_DELETE             : Nat := T_DELETE
def TS_FINAL              : Nat := T_FINAL
def TS_INLINE             : Nat := T_INLINE
def TS_NOEXCEPT           : Nat := T_NOEXCEPT
def TS_OVERRIDE           : Nat := T_OVERRIDE
def TS_PURE_VIRTUAL       : Nat := T_PURE_VIRTUAL
def TS_THROW              : Nat := T_THROW
def TS_VIRTUAL            : Nat := T_VIRTUAL
def TS_ATOMIC             : Nat := T_ATOMIC
def TS_CONST              : Nat := T_CONST
def TS_RESTRICT           : Nat := T_RESTRICT
def TS_VOLATILE           : Nat := T_VOLATILE
def TS_REFERENCE          : Nat := T_REFERENCE
def TS_RVALUE_REFERENCE   : Nat := T_RVALUE_REFERENCE
def TS_MASK_QUALIFIER     : Nat := T_MASK_QUALIFIER
def TS_MASK_REF_QUALIFIER : Nat := T_MASK_REF_QUALIFIER
def TS_MASK_STORAGE       : Nat := T_MASK_STORAGE
def TS_CV                 : Nat := TS_CONST ||| TS_VOLATILE

def TA_NONE        : Nat := 0

/-- Microsoft calling-convention attribute bits.  They postdate
src/src/c_type.h, so two fresh bits of the attribute sector's free space are
used; only the mask matters to the printer. -/
def TA_MSC_CDECL   : Nat := 0x0040000000000000
def TA_MSC_STDCALL : Nat := 0x0080000000000000
def TA_ANY_MSC_CALL : Nat := TA_MSC_CDECL ||| TA_MSC_STDCALL

/-- The source's c_tid_compl: the complement within the 64-bit tid space. -/
def c_tid_compl (t : Nat) : Nat := 0xFFFFFFFFFFFFFFFF ^^^ t

def CType.isNone (t : CType) : Bool := t.btids == 0 && t.stids == 0 && t.atids == 0

/-- The source's c_type_is_none. -/
def c_type_is_none (t : CType) : Bool := t.isNone

/-- The source's c_type_equal (structural equality of the three tid fields). -/
def c_type_equal (a b : CType) : Bool :=
  a.btids == b.btids && a.stids == b.stids && a.atids == b.atids

/-- The source's c_type_is_tid_any: does the type have any of the given bits
(in whichever sector they live)? -/
def c_type_is_tid_any (t : CType) (tids : Nat) : Bool :=
  (t.btids ||| t.stids ||| t.atids) &&& tids != 0

/-- Joins strings with a separator (the behaviour of String.intercalate,
defined recursively so that proofs can compute with it). -/
def strJoinSep (sep : String) : List String → String
  | [] => ""
  | [x] => x
  | x :: y :: xs => x ++ sep ++ strJoinSep sep (y :: xs)

/-- Concatenates a list of strings (the behaviour of String.join, defined
recursively so that proofs can compute with it). -/
def strConcat : List String → String
  | [] => ""
  | x :: xs => x ++ strConcat xs

/-- The keyword each single type bit prints as.  Modelled from the spec:
"name(type) -> string: canonical pretty-print" (spec 4.1); c_type.c, which
holds the table, is not among the repository's files. -/
def tidWords : List (Nat × String) :=
  [(T_AUTO_STORAGE, "auto"), (T_APPLE_BLOCK, "__block"), (T_EXTERN, "extern"),
   (T_MUTABLE, "mutable"), (T_REGISTER, "register"), (T_STATIC, "static"),
   (T_THREAD_LOCAL, "thread_local"), (T_TYPEDEF, "typedef"),
   (T_CONSTEVAL, "consteval"), (T_CONSTEXPR, "constexpr"),
   (T_EXPLICIT, "explicit"), (T_FRIEND, "friend"), (T_INLINE, "inline"),
   (T_VIRTUAL, "virtual"), (T_FINAL, "final"), (T_NOEXCEPT, "noexcept"),
   (T_OVERRIDE, "override"),
   (T_CARRIES_DEPENDENCY, "carries_dependency"), (T_DEPRECATED, "deprecated"),
   (T_MAYBE_UNUSED, "maybe_unused"), (T_NODISCARD, "nodiscard"),
   (T_NORETURN, "noreturn"),
   (TA_MSC_CDECL, "__cdecl"), (TA_MSC_STDCALL, "__stdcall"),
   (T_ATOMIC, "_Atomic"), (T_CONST, "const"), (T_RESTRICT, "restrict"),
   (T_VOLATILE, "volatile"),
   (T_VOID, "void"), (T_AUTO_TYPE, "auto"), (T_BOOL, "bool"),
   (T_CHAR, "char"), (T_CHAR8_T, "char8_t"), (T_CHAR16_T, "char16_t"),
   (T_CHAR32_T, "char32_t"), (T_WCHAR_T, "wchar_t"), (T_SHORT, "short"),
   (T_INT, "int"), (T_LONG, "long"), (T_LONG_LONG, "long long"),
   (T_SIGNED, "signed"), (T_UNSIGNED, "unsigned"), (T_FLOAT, "float"),
   (T_DOUBLE, "double"), (T_COMPLEX, "_Complex"), (T_IMAGINARY, "_Imaginary"),
   (T_ENUM, "enum"), (T_STRUCT, "struct"), (T_UNION, "union"),
   (T_CLASS, "class"), (T_NAMESPACE, "namespace")]

/-- The keywords of the bits set in a tid, in the table's canonical order.
Modelled from the spec (see tidWords). -/
def c_tid_name_parts (tid : Nat) : List String :=
  (tidWords.filter (fun p => tid &&& p.1 != 0)).map (fun p => p.2)

/-- Modelled from the spec: the source's c_tid_name_c (c_type.c is not among
the repository's files). -/
def c_tid_name_c (tid : Nat) : String :=
  strJoinSep " " (c_tid_name_parts tid)

/-- The keywords a whole c_type_t prints as. -/
def c_type_name_parts (t : CType) : List String :=
  c_tid_name_parts (t.btids ||| t.stids ||| t.atids)

/-- Modelled from the spec: the source's c_type_name_c. -/
def c_type_name_c (t : CType) : String :=
  strJoinSep " " (c_type_name_parts t)

/-- Modelled from the spec: the source's c_type_name_ecsu (the variant that
may omit the class/struct/union keyword under the explicit-ecsu option; the
option plays no role in the claims, so the canonical name is printed). -/
def c_type_name_ecsu (t : CType) : String := c_type_name_c t

/-! Scoped names (c_sname_t): an ordered list of (name, scope type)
segments, outermost first, the last segment being the local name. -/

/-- One segment of a scoped name (the source's c_scope_data: name and type). -/
structure SNamePart : Type where
  name : String
  type : CType
deriving DecidableEq, Repr

/-- A scoped name. -/
abbrev SName := List SNamePart

def c_sname_empty (s : SName) : Bool := s.isEmpty

def c_sname_count (s : SName) : Nat := s.length

def c_sname_full_name (s : SName) : String :=
  strJoinSep "::" (s.map (fun p => p.name))

def c_sname_local_name (s : SName) : String :=
  (s.getLast?).elim "" (fun p => p.name)

def c_sname_scope_name (s : SName) : String :=
  strJoinSep "::" (s.dropLast.map (fun p => p.name))

def c_sname_first_type (s : SName) : CType :=
  (s.head?).elim ⟨0, 0, 0⟩ (fun p => p.type)

/-- The type of the local name's own scope: the second-to-last segment. -/
def c_sname_scope_type (s : SName) : CType :=
  (s.dropLast.getLast?).elim ⟨0, 0, 0⟩ (fun p => p.type)

/-! The AST node of gibberish.c's era. -/

/-- AST node kinds (the era's c_kind.h, in the repository as
src/unnamed/part_003). -/
inductive GKind : Type where
  | placeholder | builtin | ecsu | name | tdef | variadic
  | array | ptr | ptrMbr | ref | rref
  | ctor | dtor | block | func | oper | udefConv | udefLit
deriving DecidableEq, Repr

/-- Alignment directive kind (c_alignas_kind_t: none, expression, or type). -/
inductive AlignKind : Type where
  | none | expr | atype
deriving DecidableEq, Repr

/-- The source's C_ARRAY_SIZE_NONE sentinel. -/
def C_ARRAY_SIZE_NONE : Int := -1

/-- The source's C_ARRAY_SIZE_VARIABLE sentinel. -/
def C_ARRAY_SIZE_VARIABLE : Int := -2

/-- An AST node (c_ast_t) with the fields gibberish.c reads.  `child` stands
for the single sub-AST pointer of the node's kind (as.parent.of_ast,
as.ptr_ref.to_ast, as.ptr_mbr.of_ast, as.ecsu.of_ast or as.tdef.for_ast);
`params` is as.func.param_ast_list (parameter nodes carry no parent pointer);
`operToken` is what c_oper_token_c returns for as.oper.oper_id (the operator
table's file is not among the repository's files, so the token is carried
directly).  The parent back-pointer is represented by the ancestor list the
printer functions thread (nearest ancestor first). -/
inductive GAst : Type where
  | mk (kind : GKind) (type : CType) (sname : SName)
       (child : Option GAst) (params : List GAst)
       (ecsuSname : SName) (classSname : SName)
       (arraySize : Int) (arrayStids : Nat) (bitWidth : Nat)
       (operToken : String)
       (alignKind : AlignKind) (alignExpr : Nat) (alignAst : Option GAst)

def GAst.kind : GAst → GKind
  | .mk k _ _ _ _ _ _ _ _ _ _ _ _ _ => k

def GAst.type : GAst → CType
  | .mk _ t _ _ _ _ _ _ _ _ _ _ _ _ => t

def GAst.sname : GAst → SName
  | .mk _ _ s _ _ _ _ _ _ _ _ _ _ _ => s

def GAst.child : GAst → Option GAst
  | .mk _ _ _ c _ _ _ _ _ _ _ _ _ _ => c

def GAst.params : GAst → List GAst
  | .mk _ _ _ _ p _ _ _ _ _ _ _ _ _ => p

def GAst.ecsuSname : GAst → SName
  | .mk _ _ _ _ _ e _ _ _ _ _ _ _ _ => e

def GAst.classSname : GAst → SName
  | .mk _ _ _ _ _ _ c _ _ _ _ _ _ _ => c

def GAst.arraySize : GAst → Int
  | .mk _ _ _ _ _ _ _ a _ _ _ _ _ _ => a

def GAst.arrayStids : GAst → Nat
  | .mk _ _ _ _ _ _ _ _ a _ _ _ _ _ => a

def GAst.bitWidth : GAst → Nat
  | .mk _ _ _ _ _ _ _ _ _ b _ _ _ _ => b

def GAst.operToken : GAst → String
  | .mk _ _ _ _ _ _ _ _ _ _ o _ _ _ => o

def GAst.alignKind : GAst → AlignKind
  | .mk _ _ _ _ _ _ _ _ _ _ _ a _ _ => a

def GAst.alignExpr : GAst → Nat
  | .mk _ _ _ _ _ _ _ _ _ _ _ _ e _ => e

def GAst.alignAst : GAst → Option GAst
  | .mk _ _ _ _ _ _ _ _ _ _ _ _ _ a => a

/-- Whether the kind is function-like (the era's K_ANY_FUNCTION_LIKE). -/
def GKind.isFuncLike : GKind → Bool
  | .ctor | .dtor | .block | .func | .oper | .udefConv | .udefLit => true
  | _ => false

/-- Whether the kind is a parent kind (the era's K_ANY_PARENT: the
function-like kinds, arrays, enums, pointers and references). -/
def GKind.isParent : GKind → Bool
  | .array | .ecsu | .ptr | .ptrMbr | .ref | .rref
  | .ctor | .dtor | .block | .func | .oper | .udefConv | .udefLit => true
  | _ => false

/-- The source's c_ast_is_parent applied through the optional parent. -/
def isParentOpt : Option GAst → Bool
  | none => false
  | some a => a.kind.isParent

/-- Strips references (c_ast_unreference chains), used to model
c_ast_is_kind_any's "or a reference or rvalue reference thereto"
(c_ast_util.c is not among the repository's files). -/
def stripRefs : GAst → GAst
  | .mk k t s c p e cs a as b o ak ae aa =>
    match k, c with
    | .ref, some inner => stripRefs inner
    | .rref, some inner => stripRefs inner
    | _, _ => .mk k t s c p e cs a as b o ak ae aa

/-- Strips typedef references (c_ast_untypedef chains). -/
def stripTypedefs : GAst → GAst
  | .mk k t s c p e cs a as b o ak ae aa =>
    match k, c with
    | .tdef, some inner => stripTypedefs inner
    | _, _ => .mk k t s c p e cs a as b o ak ae aa

/-- Modelled after c_ast_util.h's documented contract: c_ast_is_kind_any is
true when the AST, or the AST a reference or rvalue reference refers to, has
one of the kinds. -/
def c_ast_is_kind_any (ast : GAst) (ks : GKind → Bool) : Bool :=
  ks (stripRefs ast).kind

/-- Modelled from the source's use: c_ast_is_ptr_to_kind(ast, K_FUNCTION) is
true when the AST is a pointer whose pointed-to AST (typedefs stripped) is a
function. -/
def c_ast_is_ptr_to_kind_func (ast : GAst) : Bool :=
  ast.kind == .ptr &&
  (ast.child.elim false (fun c => (stripTypedefs c).kind == .func))

/-- c_ast_find_name with C_VISIT_UP over the ancestor list: the first AST,
starting at the node itself and walking to the root, that has a name. -/
def c_ast_find_name_up (anc : List GAst) (ast : GAst) : Option SName :=
  if !c_sname_empty ast.sname then some ast.sname
  else
    match anc with
    | [] => none
    | p :: rest => c_ast_find_name_up rest p

/-- c_ast_find_kind_any with C_VISIT_UP starting at the parent: whether some
ancestor's kind satisfies the mask. -/
def ancHasKind (anc : List GAst) (ks : GKind → Bool) : Bool :=
  anc.any (fun a => ks a.kind)

/-- c_ast_find_name with C_VISIT_DOWN: the first named node on the downward
chain (the visit direction is modelled from spec 4.2; c_ast.c is not among
the repository's files). -/
def c_ast_find_name_down : GAst → Option SName
  | .mk k t s c p e cs a as b o ak ae aa =>
    if !c_sname_empty s then some s
    else
      match c with
      | some inner => c_ast_find_name_down inner
      | none =>
        -- fields otherwise unused in this equation
        let _ := (k, t, p, e, cs, a, as, b, o, ak, ae, aa)
        none

/-! The printer's option and state records. -/

/-- The gibberish-printing flag bits (c_gib_flags_t). -/
structure GFlags : Type where
  cast : Bool
  decl : Bool
  tydef : Bool
  guse : Bool
  omitType : Bool
  multiDecl : Bool
deriving DecidableEq, Repr

/-- The global options the printer reads: opt_lang, opt_east_const,
opt_alt_tokens, opt_graph and opt_semicolon. -/
structure GOpts : Type where
  lang : Nat
  east_const : Bool
  alt_tokens : Bool
  graph : CGraph
  semicolon : Bool
deriving DecidableEq, Repr

/-- The printer's threaded state (struct g_state).  `postfx` is the source's
`postfix` member. -/
structure GState : Type where
  flags : GFlags
  postfx : Bool
  printed_space : Bool
  printing_typedef : Bool
  skip_name_for_using : Bool
deriving DecidableEq, Repr

/-- g_init (src/src/gibberish.c, lines 114-127). -/
def g_init (flags : GFlags) (printing_typedef : Bool) : GState :=
  { flags := flags
    postfx := false
    printed_space := flags.omitType
    printing_typedef := printing_typedef
    skip_name_for_using := flags.guse }

/-- The printer's failure modes in this embedding: reaching the
CASE_K_PLACEHOLDER assert, or running out of recursion fuel (the C code has
no fuel; the fuel only bounds the shallow embedding's recursion). -/
inductive PErr : Type where
  | placeholder | fuel
deriving DecidableEq, Repr

/-- A printing step: threads the g_state and produces emitted text. -/
def GM : Type := GState → Except PErr (GState × String)

/-- Emit nothing. -/
def gpure : GM := fun g => .ok (g, "")

/-- Emit a string. -/
def gemit (s : String) : GM := fun g => .ok (g, s)

/-- Fail. -/
def gfail (e : PErr) : GM := fun _ => .error e

/-- Sequence two steps, concatenating their output. -/
def gseq (a b : GM) : GM := fun g =>
  match a g with
  | .error e => .error e
  | .ok (g1, s1) =>
    match b g1 with
    | .error e => .error e
    | .ok (g2, s2) => .ok (g2, s1 ++ s2)

/-- Sequence a list of steps. -/
def gseqs : List GM → GM
  | [] => gpure
  | m :: ms => gseq m (gseqs ms)

/-- Run a step only under a condition. -/
def gwhen (c : Bool) (m : GM) : GM := if c then m else gpure

/-- Read the current state. -/
def gget (k : GState → GM) : GM := fun g => k g g

/-- Update the state. -/
def gmodify (f : GState → GState) : GM := fun g => .ok (f g, "")

/-- g_print_space_once (src/src/gibberish.c, lines 80-83). -/
def g_print_space_once : GM :=
  gget fun g =>
    gwhen (!g.printed_space)
      (gseq (gmodify fun g0 => { g0 with printed_space := true }) (gemit " "))

/-- g_print_ast_name (src/src/gibberish.c, lines 521-555). -/
def g_print_ast_name (ast : GAst) : GM :=
  gget fun g =>
    if g.skip_name_for_using then
      gmodify fun g0 =>
        { g0 with skip_name_for_using := false, printed_space := true }
    else
      gemit (if g.flags.tydef then c_sname_local_name ast.sname
             else c_sname_full_name ast.sname)

/-- g_print_ast_bit_width (src/src/gibberish.c, lines 477-484). -/
def g_print_ast_bit_width (ast : GAst) : GM :=
  gwhen (ast.bitWidth > 0) (gemit (" : " ++ toString ast.bitWidth))

/-- g_print_ast_array_size (src/src/gibberish.c, lines 450-468). -/
def g_print_ast_array_size (opts : GOpts) (ast : GAst) : GM :=
  gseqs
    [gemit (graph_token_c opts.alt_tokens opts.graph opts.lang "["),
     gwhen (ast.arrayStids != 0) (gemit (c_tid_name_c ast.arrayStids ++ " ")),
     (if ast.arraySize = C_ARRAY_SIZE_NONE then gpure
      else if ast.arraySize = C_ARRAY_SIZE_VARIABLE then gemit "*"
      else gemit (toString ast.arraySize)),
     gemit (graph_token_c opts.alt_tokens opts.graph opts.lang "]")]

/-- g_print_qual_name (src/src/gibberish.c, lines 710-788). -/
def g_print_qual_name (opts : GOpts) (anc : List GAst) (ast : GAst) : GM :=
  let qual_stid := ast.type.stids &&& TS_MASK_QUALIFIER
  gseqs
    [(match ast.kind with
      | .ptr =>
        gseq
          (gget fun g =>
            gwhen (qual_stid != 0 && !g.flags.cast &&
                   !c_ast_is_ptr_to_kind_func ast)
              g_print_space_once)
          (gemit "*")
      | .ptrMbr => gemit (c_sname_full_name ast.classSname ++ "::*")
      | .ref =>
        if opts.alt_tokens then gseq g_print_space_once (gemit "bitand ")
        else gemit "&"
      | .rref =>
        if opts.alt_tokens then gseq g_print_space_once (gemit "and ")
        else gemit "&&"
      | _ => gpure),
     gwhen (qual_stid != 0)
       (gseq (gemit (c_tid_name_c qual_stid))
         (gget fun g =>
           gwhen ((g.flags.decl || g.flags.tydef) &&
                  (c_ast_find_name_up anc ast).isSome)
             (gemit " "))),
     g_print_ast_name ast]

/-- Whether the token starts with an alphabetic character (the source's
isalpha( token[0] )). -/
def tokStartsAlpha (s : String) : Bool :=
  (s.data.head?).elim false Char.isAlpha

/-- g_print_space_ast_name (src/src/gibberish.c, lines 798-847). -/
def g_print_space_ast_name (opts : GOpts) (ast : GAst) : GM :=
  gget fun g =>
    if g.flags.cast then gpure
    else
      match ast.kind with
      | .ctor => gemit (c_sname_full_name ast.sname)
      | .dtor =>
        gseqs
          [gwhen (c_sname_count ast.sname > 1)
             (gemit (c_sname_scope_name ast.sname ++ "::")),
           (if opts.alt_tokens then gemit "compl " else gemit "~"),
           gemit (c_sname_local_name ast.sname)]
      | .oper =>
        gseqs
          [g_print_space_once,
           gwhen (!c_sname_empty ast.sname)
             (gemit (c_sname_full_name ast.sname ++ "::")),
           gemit ("operator" ++
                  (if tokStartsAlpha ast.operToken then " " else "") ++
                  ast.operToken)]
      | .udefConv => gpure
      | .udefLit =>
        gseqs
          [g_print_space_once,
           gwhen (c_sname_count ast.sname > 1)
             (gemit (c_sname_scope_name ast.sname ++ "::")),
           gemit ("operator\"\" " ++ c_sname_local_name ast.sname)]
      | _ =>
        gwhen (!c_sname_empty ast.sname)
          (gseq
            (gget fun g2 => gwhen (!g2.skip_name_for_using) g_print_space_once)
            (g_print_ast_name ast))

/-- g_space_before_ptr_ref (src/src/gibberish.c, lines 883-893). -/
def g_space_before_ptr_ref (g : GState) (anc : List GAst) (ast : GAst) :
    Bool :=
  if g.skip_name_for_using then false
  else if g.flags.cast then false
  else if (c_ast_find_name_up anc ast).isNone then false
  else if ancHasKind anc GKind.isFuncLike then g.flags.multiDecl
  else true

/-! The function-tail bookkeeping of g_print_ast's function-like arm
(src/src/gibberish.c, lines 141-219 compute it; lines 247-268 print it). -/

/-- The local variables g_print_ast computes for a function-like node before
descending: the stripped type and the booleans governing the tail. -/
structure FnTailFlags : Type where
  cv_qual_stid : Nat
  is_default : Bool
  is_delete : Bool
  is_final : Bool
  is_noexcept : Bool
  is_override : Bool
  is_pure_virtual : Bool
  is_throw : Bool
  msc_call_atid : Nat
  ref_qual_stid : Nat
  type : CType
deriving DecidableEq, Repr

/-- The extraction a function-like kind performs on its type
(src/src/gibberish.c, lines 169-219): strip the tail-printed bits out of the
type (including `virtual` whenever `override` or `final` will be printed),
single out the Microsoft calling convention, and swap noexcept and throw()
according to the active language. -/
def g_fn_extract (type0 : CType) (lang : Nat) : FnTailFlags :=
  let cv_qual_stid := type0.stids &&& TS_MASK_QUALIFIER
  let is_default := type0.stids &&& TS_DEFAULT != 0
  let is_delete := type0.stids &&& TS_DELETE != 0
  let is_final := type0.stids &&& TS_FINAL != 0
  let is_noexcept0 := type0.stids &&& TS_NOEXCEPT != 0
  let is_pure_virtual := type0.stids &&& TS_PURE_VIRTUAL != 0
  let is_throw0 := type0.stids &&& TS_THROW != 0
  let ref_qual_stid := type0.stids &&& TS_MASK_REF_QUALIFIER
  let is_override := !is_final && (type0.stids &&& TS_OVERRIDE != 0)
  let strip :=
    TS_MASK_QUALIFIER ||| TS_DEFAULT ||| TS_DELETE ||| TS_FINAL |||
    TS_NOEXCEPT ||| TS_OVERRIDE ||| TS_PURE_VIRTUAL ||| TS_THROW |||
    TS_MASK_REF_QUALIFIER |||
    (if is_override || is_final then TS_VIRTUAL else TS_NONE)
  let stids1 := type0.stids &&& c_tid_compl strip
  let msc_call_atid := type0.atids &&& TA_ANY_MSC_CALL
  let atids1 := type0.atids &&& c_tid_compl TA_ANY_MSC_CALL
  let noex_throw :=
    if lang < LANG_CPP_11 then (false, is_throw0 || is_noexcept0)
    else (is_noexcept0 || is_throw0, false)
  { cv_qual_stid := cv_qual_stid
    is_default := is_default
    is_delete := is_delete
    is_final := is_final
    is_noexcept := noex_throw.1
    is_override := is_override
    is_pure_virtual := is_pure_virtual
    is_throw := noex_throw.2
    msc_call_atid := msc_call_atid
    ref_qual_stid := ref_qual_stid
    type := { btids := type0.btids, stids := stids1, atids := atids1 } }

/-- The tail flags of a node entered at the K_ARRAY / K_APPLE_BLOCK label
without falling through the function-like computation: everything false, the
type unchanged. -/
def g_fn_trivial (type0 : CType) : FnTailFlags :=
  ⟨0, false, false, false, false, false, false, false, 0, 0, type0⟩

/-- The exception-specification segment of the function tail
(src/src/gibberish.c, lines 255-258): " noexcept", or else " throw()", or
nothing. -/
def g_fn_tail_exception_part (f : FnTailFlags) : List String :=
  if f.is_noexcept then [" noexcept"]
  else if f.is_throw then [" throw()"] else []

/-- The override/final/pure-virtual segment of the function tail
(src/src/gibberish.c, lines 259-264): " override", or else " final", or
else " = 0", or nothing. -/
def g_fn_tail_vf_part (f : FnTailFlags) : List String :=
  if f.is_override then [" override"]
  else if f.is_final then [" final"]
  else if f.is_pure_virtual then [" = 0"] else []

/-- The strings the function tail prints after the parameter list, in
emission order (src/src/gibberish.c, lines 247-268): cv-qualifiers,
ref-qualifier, noexcept or throw(), override or final or = 0, and = default
or = delete. -/
def g_fn_tail_parts (f : FnTailFlags) : List String :=
  (if f.cv_qual_stid != 0 then [" " ++ c_tid_name_c f.cv_qual_stid] else []) ++
  (if f.ref_qual_stid != 0 then
    [if f.ref_qual_stid &&& TS_REFERENCE != 0 then " &" else " &&"]
   else []) ++
  g_fn_tail_exception_part f ++
  g_fn_tail_vf_part f ++
  (if f.is_default then [" = default"]
   else if f.is_delete then [" = delete"] else [])

/-- Run a parameter's print with the fresh state g_print_ast_list builds for
it (the outer state is unchanged; the parameter state drops C_GIB_OMIT_TYPE
and clears printing_typedef, src/src/gibberish.c lines 504-510). -/
def gparam (m : GM) : GM := fun g =>
  match m (g_init { g.flags with omitType := false } false) with
  | .error e => .error e
  | .ok (_, s) => .ok (g, s)

mutual

/-- g_print_ast (src/src/gibberish.c, lines 135-442).  `anc` is the list of
ancestors, nearest first (the source's parent_ast chain); `fuel` only bounds
the embedding's recursion and plays no other role. -/
def g_print_ast (fuel : Nat) (opts : GOpts) (anc : List GAst) (ast : GAst) :
    GM :=
  match fuel with
  | 0 => gfail .fuel
  | fuel + 1 =>
    match ast.kind with
    | .ctor | .dtor | .udefConv | .func | .oper | .udefLit | .array
    | .block =>
      -- The merged switch arm: K_CONSTRUCTOR/K_DESTRUCTOR/K_USER_DEF_CONVERSION
      -- fall through K_FUNCTION/K_OPERATOR/K_USER_DEF_LITERAL, which fall
      -- through K_ARRAY/K_APPLE_BLOCK.
      let setSpace := ast.kind == .ctor || ast.kind == .dtor ||
                      ast.kind == .udefConv
      let f :=
        if ast.kind == .array || ast.kind == .block then g_fn_trivial ast.type
        else g_fn_extract ast.type opts.lang
      gseqs
        [gwhen setSpace (gmodify fun g => { g with printed_space := true }),
         gwhen (!c_type_is_none f.type) (gemit (c_type_name_c f.type ++ " ")),
         gwhen (ast.kind == .udefConv)
           (gseq
             (gwhen (!c_sname_empty ast.sname)
               (gemit (c_sname_full_name ast.sname ++ "::")))
             (gemit "operator ")),
         (match ast.child with
          | some c => g_print_ast fuel opts (ast :: anc) c
          | none => gpure),
         gwhen (f.msc_call_atid != 0 &&
                !((anc.head?).elim false (fun p => p.kind == .ptr)))
           (gemit (" " ++ c_tid_name_c f.msc_call_atid)),
         gget (fun g =>
           if !g.postfx then
             gseqs
               [gmodify (fun g0 => { g0 with postfx := true }),
                gget (fun g1 =>
                  gwhen (!g1.skip_name_for_using && !g1.flags.cast)
                    g_print_space_once),
                g_print_pfix fuel opts anc ast]
           else gpure),
         gemit (strConcat (g_fn_tail_parts f))]
    | .builtin =>
      gseqs
        [gget fun g =>
           gwhen (!g.flags.omitType) (gemit (c_type_name_c ast.type)),
         g_print_space_ast_name opts ast,
         g_print_ast_bit_width ast]
    | .ecsu =>
      gget fun g =>
        let type1 :=
          if ast.type.btids &&& TB_ENUM != 0 then
            { ast.type with
              btids := ast.type.btids &&& c_tid_compl (TB_STRUCT ||| TB_CLASS) }
          else ast.type
        let cv := if opts.east_const then type1.stids &&& TS_CV else 0
        let type2 :=
          if opts.east_const then
            { type1 with stids := type1.stids &&& c_tid_compl TS_CV }
          else type1
        let type_name :=
          if g.flags.cast || g.flags.decl then c_type_name_ecsu type2
          else c_type_name_c type2
        gseqs
          [gemit type_name,
           gwhen (!g.flags.tydef || g.printing_typedef)
             (gemit ((if type_name ≠ "" then " " else "") ++
                     c_sname_full_name ast.ecsuSname)),
           (match ast.child with
            | some c => gseq (gemit " : ") (g_print_ast fuel opts (ast :: anc) c)
            | none => gpure),
           gwhen (cv != 0) (gemit (" " ++ c_tid_name_c cv)),
           g_print_space_ast_name opts ast]
    | .name =>
      gseqs
        [gwhen (LANG_C_KNR < opts.lang) (gemit "int"),
         gget fun g =>
           gwhen (!g.flags.cast)
             (gseq (gwhen (LANG_C_KNR < opts.lang) (gemit " "))
               (g_print_ast_name ast))]
    | .ptr | .ref | .rref =>
      gseqs
        [gget fun g =>
           gwhen (!g.flags.omitType)
             (let stid := ast.type.stids &&& TS_MASK_STORAGE
              gwhen (stid != 0) (gemit (c_tid_name_c stid ++ " "))),
         (match ast.child with
          | some c => g_print_ast fuel opts (ast :: anc) c
          | none => gpure),
         gget fun g =>
           gwhen (g_space_before_ptr_ref g anc ast) g_print_space_once,
         gget fun g => gwhen (!g.postfx) (g_print_qual_name opts anc ast)]
    | .ptrMbr =>
      gseqs
        [(match ast.child with
          | some c => g_print_ast fuel opts (ast :: anc) c
          | none => gpure),
         gget fun g =>
           gwhen (!g.postfx)
             (gseq (gemit " ") (g_print_qual_name opts anc ast))]
    | .tdef =>
      gget fun g =>
        gseqs
          [gwhen (!g.flags.omitType)
             (let is_more :=
                !c_type_equal ast.type ⟨TB_TYPEDEF, TS_NONE, TA_NONE⟩
              let printParens :=
                lang_is_any opts.lang LANG_CPP_MIN_23 &&
                ast.type.stids &&& TS_ATOMIC != 0
              gseqs
                [gwhen (is_more && !opts.east_const)
                   (gemit (c_type_name_c ast.type)),
                 (if printParens then gemit "("
                  else gwhen (is_more && !opts.east_const) (gemit " ")),
                 gget (fun g1 =>
                   gseqs
                     [gmodify (fun g0 =>
                        { g0 with skip_name_for_using := false }),
                      (match ast.child with
                       | some c => g_print_ast_name c
                       | none => gpure),
                      gmodify (fun g0 =>
                        { g0 with
                          skip_name_for_using := g1.skip_name_for_using })]),
                 gwhen printParens (gemit ")"),
                 gwhen (is_more && opts.east_const)
                   (gemit (" " ++ c_type_name_c ast.type))]),
           g_print_space_ast_name opts ast,
           g_print_ast_bit_width ast]
    | .variadic => gemit "..."
    | .placeholder => gfail .placeholder

/-- g_print_postfix (src/src/gibberish.c, lines 568-698; the name here drops
the vowels of the final word). -/
def g_print_pfix (fuel : Nat) (opts : GOpts) (anc : List GAst) (ast : GAst) :
    GM :=
  match fuel with
  | 0 => gfail .fuel
  | fuel + 1 =>
    gseq
      (match anc with
       | parent :: rest =>
         match parent.kind with
         | .array | .block | .ctor | .dtor | .func | .oper | .udefConv
         | .udefLit =>
           g_print_pfix fuel opts rest parent
         | .ptr | .ptrMbr | .ref | .rref =>
           gseqs
             [(match ast.kind with
               | .block => gemit "(^"
               | .ptr => gpure
               | _ =>
                 gseq (gemit "(")
                   (gwhen (c_type_is_tid_any ast.type TA_ANY_MSC_CALL)
                     (gemit
                       (c_tid_name_c (ast.type.atids &&& TA_ANY_MSC_CALL) ++
                        " ")))),
              g_print_qual_name opts rest parent,
              gwhen (isParentOpt rest.head?) (g_print_pfix fuel opts rest parent),
              gwhen (!c_ast_is_kind_any ast
                      (fun k => k == .ptr || k == .ptrMbr))
                (gemit ")")]
         | .builtin | .ecsu | .name | .tdef | .variadic => gpure
         | .placeholder => gfail .placeholder
       | [] =>
         gseqs
           [gwhen (ast.kind == .block) (gemit "(^"),
            g_print_space_ast_name opts ast,
            gwhen (ast.kind == .block) (gemit ")")])
      (match ast.kind with
       | .array => g_print_ast_array_size opts ast
       | .block | .ctor | .func | .oper | .udefLit =>
         gseqs
           [gemit "(",
            g_print_ast_list fuel opts false ast.params,
            gemit ")"]
       | .dtor | .udefConv => gemit "()"
       | .placeholder => gfail .placeholder
       | _ => gpure)

/-- g_print_ast_list (src/src/gibberish.c, lines 494-512): parameters
separated by ", ", each printed with a fresh parameter state. -/
def g_print_ast_list (fuel : Nat) (opts : GOpts) (comma : Bool)
    (ps : List GAst) : GM :=
  match fuel with
  | 0 => gfail .fuel
  | fuel + 1 =>
    match ps with
    | [] => gpure
    | p :: rest =>
      gseqs
        [gwhen comma (gemit ", "),
         gparam (g_print_ast fuel opts [] p),
         g_print_ast_list fuel opts true rest]

end

/-- c_ast_gibberish_impl (src/src/gibberish.c, lines 96-104). -/
def c_ast_gibberish_impl (fuel : Nat) (opts : GOpts) (ast : GAst)
    (flags : GFlags) (printing_typedef : Bool) : Except PErr String :=
  match g_print_ast fuel opts [] ast (g_init flags printing_typedef) with
  | .error e => .error e
  | .ok (_, s) => .ok s

/-- Modelled from the spec: alignas_lang (its file is not among the
repository's files); the claims do not depend on its value. -/
def alignas_lang (opts : GOpts) : String :=
  if lang_is_any opts.lang LANG_CPP_ANY then "alignas" else "_Alignas"

/-- The flag record for a plain C_GIB_DECL print. -/
def gibDeclFlags : GFlags := ⟨false, true, false, false, false, false⟩

/-- c_ast_gibberish (src/src/gibberish.c, lines 897-921): the alignment
directive, if any, then the declaration or cast itself. -/
def c_ast_gibberish (fuel : Nat) (opts : GOpts) (ast : GAst) (flags : GFlags) :
    Except PErr String :=
  match fuel with
  | 0 => .error .fuel
  | fuel + 1 =>
    let alignPart : Except PErr String :=
      if flags.omitType then .ok ""
      else
        match ast.alignKind with
        | .none => .ok ""
        | .expr =>
          .ok (alignas_lang opts ++ "(" ++ toString ast.alignExpr ++ ") ")
        | .atype =>
          match ast.alignAst with
          | none => .ok ""
          | some t =>
            match c_ast_gibberish fuel opts t gibDeclFlags with
            | .error e => .error e
            | .ok s => .ok (alignas_lang opts ++ "(" ++ s ++ ") ")
    match alignPart with
    | .error e => .error e
    | .ok p =>
      match c_ast_gibberish_impl fuel opts ast flags false with
      | .error e => .error e
      | .ok s => .ok (p ++ s)

/-! c_typedef_gibberish, claim C6 (src/src/gibberish.c, lines 935-1090). -/

/-- A typedef registry entry (c_typedef_t): the defined AST and the
language set the entry belongs to. -/
structure GTypedef : Type where
  ast : GAst
  langIds : Nat

/-- The scope-wrapping part of c_typedef_gibberish (src/src/gibberish.c,
lines 943-1041): the text printed before the typedef, the number of closing
braces owed, and the final value of the function's scope_type's base bits
(which decides whether the trailing semicolon is printed, line 1087). -/
def c_typedef_scope_info (opts : GOpts) (tdef : GTypedef) :
    String × Nat × Nat :=
  match c_ast_find_name_down tdef.ast with
  | none => ("", 0, 0)
  | some sname =>
    if c_sname_count sname > 1 then
      let scope_type := c_sname_first_type sname
      if scope_type.btids ≠ TB_NAMESPACE ||
         lang_is_any opts.lang (LANG_CPP_MIN_17 ||| LANG_C_ANY) then
        -- One scoped declaration, C++17 nested-namespace style.
        if scope_type.stids &&& TS_INLINE != 0 then
          -- Inline namespace: strip TS_INLINE from the sname's first scope
          -- type (scope_type itself keeps it and is what is printed).
          (c_type_name_c scope_type ++ " " ++ c_sname_scope_name sname ++
             " \x7b ",
           1, scope_type.btids)
        else
          let scope_type2 :=
            let t := c_sname_scope_type sname
            let t2 := if t.btids == TB_SCOPE then { t with btids := TB_NAMESPACE }
                      else t
            { t2 with stids := t2.stids &&& c_tid_compl TS_INLINE }
          (c_type_name_c scope_type2 ++ " " ++ c_sname_scope_name sname ++
             " \x7b ",
           1, scope_type2.btids)
      else
        -- C++14 and earlier: one nested declaration per scope.
        let scopes := sname.dropLast
        let parts := scopes.map (fun sc =>
          let t := sc.type
          let t2 := if t.btids == TB_SCOPE then { t with btids := TB_NAMESPACE }
                    else t
          c_type_name_c t2 ++ " " ++ sc.name ++ " \x7b ")
        let lastB :=
          match scopes.getLast? with
          | none => 0
          | some sc =>
            if sc.type.btids == TB_SCOPE then TB_NAMESPACE else sc.type.btids
        (strConcat parts, c_sname_count sname - 1, lastB)
    else ("", 0, 0)

/-- c_typedef_gibberish (src/src/gibberish.c, lines 935-1090). -/
def c_typedef_gibberish (fuel : Nat) (opts : GOpts) (tdef : GTypedef)
    (flags : GFlags) : Except PErr String :=
  let si := c_typedef_scope_info opts tdef
  let is_ecsu := tdef.ast.kind == .ecsu
  let printing_typedef :=
    flags.tydef &&
    (!is_ecsu || lang_is_any tdef.langIds LANG_C_ANY ||
     (lang_is_any opts.lang LANG_C_ANY &&
      !lang_is_any tdef.langIds LANG_CPP_ANY))
  let printing_using := flags.guse && !is_ecsu
  let head :=
    if printing_typedef then "typedef "
    else if printing_using then
      "using " ++
      ((c_ast_find_name_down tdef.ast).elim "" c_sname_local_name) ++ " = "
    else ""
  let bodyFlags : GFlags :=
    if printing_using then ⟨false, false, false, true, false, false⟩
    else ⟨false, false, true, false, false, false⟩
  match c_ast_gibberish_impl fuel opts tdef.ast bodyFlags printing_typedef with
  | .error e => .error e
  | .ok body =>
    let closing :=
      if si.2.1 > 0 then ";" ++ strConcat (List.replicate si.2.1 " \x7d")
      else ""
    let finalSemi :=
      if opts.semicolon && si.2.2 ≠ TB_NAMESPACE then ";" else ""
    .ok (si.1 ++ head ++ body ++ closing ++ finalSemi ++ "\n")

/-! The English printer, claims C1 and C7: src/english.c (in the repository
as src/unnamed/part_000).  That file belongs to the older data model: a node
carries a single 64-bit type identifier (the constants of src/src/c_type.h),
a plain name, and kind-specific payloads. -/

/-- The operator overload classification op_get_overload returns
(c_operator.c is not among the repository's files, so the classification is
carried in the node). -/
inductive OpOverload : Type where
  | unspecified | member | nonMember
deriving DecidableEq, Repr

/-- AST node kinds of the older model (english.c's switch). -/
inductive EKind : Type where
  | none | placeholder | array | block | func | oper | builtin | ecsu
  | name | ptr | ref | rref | ptrMbr | tdef | variadic
deriving DecidableEq, Repr

/-- An AST node of the older model with the fields english.c reads:
kind, type_id, the optional name, the child AST (as.parent.of_ast or
as.ptr_ref.to_ast), the argument list (c_ast_args), the array payload,
the ECSU tag name, the pointer-to-member class name, the name of the
referenced typedef's AST (as.c_typedef->ast->name), and the operator's
overload classification. -/
inductive EAst : Type where
  | mk (kind : EKind) (type_id : Nat) (name : Option String)
       (child : Option EAst) (args : List EAst)
       (arraySize : Int) (arrayTid : Nat)
       (ecsuName : String) (className : String) (tdefName : String)
       (operOverload : OpOverload)

def EAst.kind : EAst → EKind
  | .mk k _ _ _ _ _ _ _ _ _ _ => k

def EAst.type_id : EAst → Nat
  | .mk _ t _ _ _ _ _ _ _ _ _ => t

def EAst.name : EAst → Option String
  | .mk _ _ n _ _ _ _ _ _ _ _ => n

def EAst.child : EAst → Option EAst
  | .mk _ _ _ c _ _ _ _ _ _ _ => c

def EAst.args : EAst → List EAst
  | .mk _ _ _ _ a _ _ _ _ _ _ => a

def EAst.arraySize : EAst → Int
  | .mk _ _ _ _ _ s _ _ _ _ _ => s

def EAst.arrayTid : EAst → Nat
  | .mk _ _ _ _ _ _ t _ _ _ _ => t

def EAst.ecsuName : EAst → String
  | .mk _ _ _ _ _ _ _ e _ _ _ => e

def EAst.className : EAst → String
  | .mk _ _ _ _ _ _ _ _ c _ _ => c

def EAst.tdefName : EAst → String
  | .mk _ _ _ _ _ _ _ _ _ t _ => t

def EAst.operOverload : EAst → OpOverload
  | .mk _ _ _ _ _ _ _ _ _ _ o => o

/-- Modelled after c_kind.h's documentation: c_kind_name (c_kind.c is not
among the repository's files). -/
def c_kind_name : EKind → String
  | .none => "none"
  | .placeholder => "placeholder"
  | .array => "array"
  | .block => "block"
  | .func => "function"
  | .oper => "operator"
  | .builtin => "built-in type"
  | .ecsu => "enum, class, struct, or union"
  | .name => "name"
  | .ptr => "pointer"
  | .ref => "reference"
  | .rref => "rvalue reference"
  | .ptrMbr => "pointer to member"
  | .tdef => "typedef"
  | .variadic => "variadic"

/-- Modelled from the spec: the older model's c_type_name (c_type.c is not
among the repository's files) — the canonical keywords of the bits set in
the 64-bit type identifier. -/
def c_type_name (tid : Nat) : String := c_tid_name_c tid

/-- c_ast_name with V_DOWN (english.c, line 119): the first name found on
the downward chain (the visit direction modelled from spec 4.2). -/
def e_find_name : EAst → Option String
  | .mk _ _ n c _ _ _ _ _ _ _ =>
    match n with
    | some s => some s
    | none =>
      match c with
      | some inner => e_find_name inner
      | none => none

/-- The failure modes of the English embedding: the asserts of the
K_PLACEHOLDER and K_NONE switch arms (english.c, lines 164-167). -/
inductive EErr : Type where
  | placeholder | noneKind
deriving DecidableEq, Repr

mutual

/-- The English print of one whole AST: c_ast_visit(ast, V_DOWN,
c_ast_visitor_english) — the visitor's text for the node, then the child's
English (the V_DOWN descent, modelled from spec 4.2; c_ast.c is not among
the repository's files). -/
def e_visit (ast : EAst) : Except EErr String :=
  match e_visitor ast with
  | .error e => .error e
  | .ok s =>
    match hc : EAst.child ast with
    | some c =>
      match e_visit c with
      | .error e => .error e
      | .ok s2 => .ok (s ++ s2)
    | none => .ok s
termination_by (sizeOf ast, 2)
decreasing_by
  · exact Prod.Lex.right _ (by omega)
  · apply Prod.Lex.left
    obtain ⟨k, t, n, child, args, asz, atid, en, cn, tn, oo⟩ := ast
    simp only [EAst.child] at hc
    subst hc
    simp_arith

/-- c_ast_visitor_english's own output for one node (src/english.c,
lines 53-201). -/
def e_visitor (ast : EAst) : Except EErr String :=
  match ast.kind with
  | .array =>
    .ok ((if ast.type_id ≠ 0 then c_type_name ast.type_id ++ " " else "") ++
         (if ast.arraySize = C_ARRAY_SIZE_VARIABLE then "variable length "
          else "") ++
         "array " ++
         (if ast.arrayTid ≠ 0 then c_type_name ast.arrayTid ++ " " else "") ++
         (if ast.arraySize ≥ 0 then toString ast.arraySize ++ " " else "") ++
         "of ")
  | .block | .func | .oper =>
    let storage :=
      if ast.type_id ≠ 0 then c_type_name ast.type_id ++ " " else ""
    let membership :=
      match ast.kind with
      | .func =>
        if ast.type_id &&& T_MEMBER_ONLY ≠ 0 then "member " else ""
      | .oper =>
        match ast.operOverload with
        | .member => "member "
        | .nonMember => "non-member "
        | .unspecified => ""
      | _ => ""
    match e_args_section (EAst.args ast) with
    | .error e => .error e
    | .ok argsText =>
      .ok (storage ++ membership ++ c_kind_name ast.kind ++ argsText ++
           " returning ")
  | .builtin => .ok (c_type_name ast.type_id)
  | .ecsu => .ok (c_type_name ast.type_id ++ " " ++ ast.ecsuName)
  | .name => .ok ((ast.name).getD "")
  | .none => .error .noneKind
  | .placeholder => .error .placeholder
  | .ptr | .ref | .rref =>
    let qual := ast.type_id &&& T_MASK_QUALIFIER
    .ok ((if qual ≠ 0 then c_type_name qual ++ " " else "") ++
         c_kind_name ast.kind ++ " to ")
  | .ptrMbr =>
    let qual := ast.type_id &&& T_MASK_QUALIFIER
    let nm := c_type_name (ast.type_id &&& c_tid_compl T_MASK_QUALIFIER)
    .ok ((if qual ≠ 0 then c_type_name qual ++ " " else "") ++
         "pointer to member of " ++
         nm ++ (if nm ≠ "" then " " else "") ++ ast.className ++ " ")
  | .tdef =>
    .ok ((if ast.type_id ≠ T_TYPEDEF_TYPE then c_type_name ast.type_id ++ " "
          else "") ++ ast.tdefName)
  | .variadic => .ok (c_kind_name ast.kind)
termination_by (sizeOf ast, 1)
decreasing_by
  · apply Prod.Lex.left
    obtain ⟨k, t, n, child, args, asz, atid, en, cn, tn, oo⟩ := ast
    simp only [EAst.args]
    simp_arith

/-- The parenthesized argument section of a function-like node (src/english.c,
lines 97-143): nothing at all when there are no arguments, otherwise
" (" the argument loop ")". -/
def e_args_section (args : List EAst) : Except EErr String :=
  if args.isEmpty then .ok ""
  else
    match e_args_loop false args with
    | .error e => .error e
    | .ok s => .ok (" (" ++ s ++ ")")
termination_by (sizeOf args, 1)
decreasing_by
  · exact Prod.Lex.right _ (by omega)

/-- The argument loop of c_ast_visitor_english (src/english.c, lines
100-140): a ", " separator once the comma flag is set; for kinds other than
K_NAME, "name as " when a name is found downward; then the argument's own
English. -/
def e_args_loop (comma : Bool) (args : List EAst) : Except EErr String :=
  match args with
  | [] => .ok ""
  | a :: rest =>
    let sep := if comma then ", " else ""
    let namePart :=
      if a.kind ≠ .name then
        match e_find_name a with
        | some n => n ++ " as "
        | none => ""
      else ""
    match e_visit a with
    | .error e => .error e
    | .ok atext =>
      match e_args_loop true rest with
      | .error e => .error e
      | .ok rtext => .ok (sep ++ namePart ++ atext ++ rtext)
termination_by (sizeOf args, 0)
decreasing_by
  · simp_wf
    apply Prod.Lex.left
    simp_arith
  · simp_wf
    apply Prod.Lex.left
    simp_arith

end

/-- c_ast_english (src/english.c, lines 205-208). -/
def c_ast_english (ast : EAst) : Except EErr String := e_visit ast

/-! The edit-distance function, claim C8: dam_lev_dist of src/dam_lev.c (in
the repository as src/unnamed/part_002). -/

/-- Matrix read (the dist_matrix of dam_lev_dist as an array of rows). -/
def mget (m : Array (Array Nat)) (i j : Nat) : Nat := ((m.getD i #[]).getD j 0)

/-- Matrix write. -/
def mset (m : Array (Array Nat)) (i j v : Nat) : Array (Array Nat) :=
  m.setD i ((m.getD i #[]).setD j v)

/-- dam_lev_dist (src/dam_lev.c, lines 76-178): the Damerau-Levenshtein
matrix computation, transcribed with the same indexing (row 0 and column 0
hold the infinity sentinel, row 1 and column 1 the base distances, and
last_row maps a character to the last row of `source` where it appeared). -/
def dam_lev_dist (source target : String) : Nat :=
  let s := source.data
  let t := target.data
  let slen := s.length
  let tlen := t.length
  if slen = 0 then tlen
  else if tlen = 0 then slen
  else
    let inf := slen + tlen
    let m0 : Array (Array Nat) :=
      Array.mkArray (slen + 2) (Array.mkArray (tlen + 2) 0)
    let m1 := mset m0 0 0 inf
    let m2 := (List.range (slen + 1)).foldl
      (fun m i => mset (mset m (i + 1) 1 i) (i + 1) 0 inf) m1
    let m3 := (List.range (tlen + 1)).foldl
      (fun m j => mset (mset m 1 (j + 1) j) 0 (j + 1) inf) m2
    let rowStep := fun (ml : Array (Array Nat) × (Char → Nat)) (row : Nat) =>
      let last_row := ml.2
      let sc := s.getD (row - 1) ' '
      let inner := (List.range tlen).foldl
        (fun (acc : Array (Array Nat) × Nat) (c0 : Nat) =>
          let col := c0 + 1
          let m := acc.1
          let last_match_col := acc.2
          let tc := t.getD (col - 1) ' '
          let last_match_row := last_row tc
          let isMatch := sc == tc
          let ins_dist := mget m row (col + 1) + 1
          let del_dist := mget m (row + 1) col + 1
          let sub_dist := mget m row col + (if isMatch then 0 else 1)
          let xpos_dist := mget m last_match_row last_match_col +
            (row - last_match_row - 1) + (col - last_match_col - 1) + 1
          let dist_min := min (min ins_dist del_dist) (min sub_dist xpos_dist)
          (mset m (row + 1) (col + 1) dist_min,
           if isMatch then col else last_match_col))
        (ml.1, 0)
      (inner.1, fun c => if c == sc then row else last_row c)
    let final := (List.range slen).foldl
      (fun ml r0 => rowStep ml (r0 + 1)) (m3, fun _ => 0)
    mget final.1 (slen + 1) (tlen + 1)

/-! Predicates and spec-side definitions used by the theorems below. -/

/-- A character that is neither a semicolon nor a newline. -/
def cleanChar (c : Char) : Bool := c != ';' && c != '\n'

/-- A string with no semicolon and no newline. -/
def cleanS (s : String) : Bool := s.data.all cleanChar

/-- A list of strings, each clean. -/
def cleanL (l : List String) : Bool := l.all cleanS

/-- A scoped name whose segment names are clean. -/
def cleanSN (s : SName) : Bool := (s.map (fun p => p.name)).all cleanS

mutual

/-- All strings a gibberish AST node (or its descendants) can contribute to
the printer's output are clean: the scoped names, the operator token, and
the decimal renderings of the array size, bit width and alignment
expression. -/
def GAst.cleanB : GAst → Bool
  | .mk _ _ sn c p e cs asz _ bw o _ ae aa =>
    cleanSN sn && cleanSN e && cleanSN cs && cleanS o &&
    cleanS (toString asz) && cleanS (toString bw) && cleanS (toString ae) &&
    gCleanOpt c && gCleanList p && gCleanOpt aa

def gCleanOpt : Option GAst → Bool
  | none => true
  | some a => a.cleanB

def gCleanList : List GAst → Bool
  | [] => true
  | a :: rest => a.cleanB && gCleanList rest

end

mutual

/-- No node of the gibberish AST has kind K_PLACEHOLDER. -/
def GAst.phFreeB : GAst → Bool
  | .mk k _ _ c p _ _ _ _ _ _ _ _ aa =>
    (k != .placeholder) && gPhFreeOpt c && gPhFreeList p && gPhFreeOpt aa

def gPhFreeOpt : Option GAst → Bool
  | none => true
  | some a => a.phFreeB

def gPhFreeList : List GAst → Bool
  | [] => true
  | a :: rest => a.phFreeB && gPhFreeList rest

end

mutual

/-- No node of the English-model AST has kind K_PLACEHOLDER. -/
def EAst.phFreeB : EAst → Bool
  | .mk k _ _ c a _ _ _ _ _ _ =>
    (k != .placeholder) && ePhFreeOpt c && ePhFreeList a

def ePhFreeOpt : Option EAst → Bool
  | none => true
  | some a => a.phFreeB

def ePhFreeList : List EAst → Bool
  | [] => true
  | a :: rest => a.phFreeB && ePhFreeList rest

end

/-- A printing step that can only fail for want of fuel — in particular the
CASE_K_PLACEHOLDER assert is never reached. -/
def NoPH (m : GM) : Prop :=
  ∀ g e, m g = .error e → e = .fuel

/-- A printing step whose every successful output is clean (no semicolon,
no newline). -/
def EmitsClean (m : GM) : Prop :=
  ∀ g g' s, m g = .ok (g', s) → cleanS s = true

/-- Whether every AST of the ancestor list is placeholder-free. -/
def ancPhFree (anc : List GAst) : Bool := anc.all GAst.phFreeB

/-- Whether every AST of the ancestor list is clean. -/
def ancClean (anc : List GAst) : Bool := anc.all GAst.cleanB

/-- The last character of a string. -/
def lastChar (s : String) : Option Char := s.data.getLast?

/-- Whether the output ends in a semicolon followed by the final newline —
the claim's "terminating semicolon". -/
def endsSemiNL (s : String) : Bool :=
  match s.data.reverse with
  | '\n' :: ';' :: _ => true
  | _ => false

/-- The number of newline characters in a string. -/
def countNL (s : String) : Nat := s.data.count '\n'

/-- The English text of an AST when its print succeeds (used by the spec-side
description of argument formatting). -/
def e_english (a : EAst) : String :=
  match e_visit a with
  | .ok s => s
  | .error _ => ""

/-- Spec-side rendering of one English function argument, written from the
claim's words: a K_NAME (K&R untyped) parameter prints as just its name; a
typed parameter carrying a name prints as "name as english"; a typed but
unnamed parameter prints as just its English. -/
def english_arg_spec (a : EAst) : String :=
  if a.kind = .name then (a.name).getD ""
  else
    match e_find_name a with
    | some n => n ++ " as " ++ e_english a
    | none => e_english a

/-! Theorems. -/

/-- Bit arithmetic helper: a conjunction with a vanishing mask pair is zero. -/
theorem land_land_eq_zero (t a b : Nat) (h : a &&& b = 0) :
    t &&& a &&& b = 0 := by
  rw [Nat.land_assoc, h]
  simp

/-- Bit arithmetic helper: or-ing a mask in and then extracting it yields the
mask. -/
theorem or_land_self (y b : Nat) : (y ||| b) &&& b = b := by
  apply Nat.eq_of_testBit_eq
  intro i
  simp only [Nat.testBit_land, Nat.testBit_or]
  cases Nat.testBit b i <;> simp

/-- Bit arithmetic helper: and distributes on the right over or. -/
theorem or_land_distrib (a b c : Nat) :
    (a ||| b) &&& c = (a &&& c) ||| (b &&& c) := by
  apply Nat.eq_of_testBit_eq
  intro i
  simp only [Nat.testBit_land, Nat.testBit_or]
  cases a.testBit i <;> cases b.testBit i <;> cases c.testBit i <;> rfl

/-- Bit arithmetic helper: a value disjoint from an or of masks is disjoint
from each mask. -/
theorem land_or_eq_zero {d a b : Nat} (h : d &&& (a ||| b) = 0) :
    d &&& a = 0 ∧ d &&& b = 0 := by
  constructor <;>
  · apply Nat.eq_of_testBit_eq
    intro i
    have hi := congrArg (fun n => Nat.testBit n i) h
    simp only [Nat.testBit_land, Nat.testBit_or, Nat.zero_testBit] at hi ⊢
    cases hd : d.testBit i <;> cases ha : a.testBit i <;>
      cases hb : b.testBit i <;> simp_all

/-- Bit arithmetic helper: or-ing in a disjoint mask and xor-ing it back out
is the identity. -/
theorem or_xor_cancel {d m : Nat} (h : d &&& m = 0) :
    (d ||| m) ^^^ m = d := by
  apply Nat.eq_of_testBit_eq
  intro i
  have hi := congrArg (fun n => Nat.testBit n i) h
  simp only [Nat.testBit_land, Nat.zero_testBit] at hi
  simp only [Nat.testBit_xor, Nat.testBit_or]
  cases hd : d.testBit i <;> cases hm : m.testBit i <;> simp_all

/-- Claim C2: the five sector bitmasks of the 64-bit type identifier are
pairwise disjoint — for every type identifier t and distinct sector masks Mi
and Mj, t AND Mi AND Mj is zero — and every single-bit T_ constant lies
inside exactly one sector mask. -/
theorem claim_C2_sector_masks_disjoint :
    (∀ t : Nat, ∀ mi ∈ sectorMasks, ∀ mj ∈ sectorMasks, mi ≠ mj →
        t &&& mi &&& mj = 0) ∧
    (∀ b ∈ allTypeBits, sectorMasks.countP (fun m => b &&& m != 0) = 1) := by
  constructor
  · intro t mi hmi mj hmj hne
    fin_cases hmi <;> fin_cases hmj <;>
      first
        | exact absurd rfl hne
        | exact land_land_eq_zero t _ _ (by decide)
  · decide

/-- Claim C3's counterexample: the claim says c_type_add succeeds (merging by
bitwise OR) in every case other than its listed exceptions, but adding
`static` to `extern` — two distinct storage classes, sharing no bit and
triggering none of the listed signed/unsigned, float/int, duplicate-bit or
long-promotion exceptions — fails. -/
theorem claim_C3_counterexample :
    c_type_add T_EXTERN T_STATIC = none ∧
    T_EXTERN &&& T_STATIC = 0 ∧
    T_STATIC ≠ T_LONG ∧
    (T_EXTERN ||| T_STATIC) &&&
      (T_SIGNED ||| T_UNSIGNED ||| T_FLOAT ||| T_INT ||| T_LONG |||
       T_LONG_LONG) = 0 := by
  refine ⟨by decide, by decide, by decide, by decide⟩

/-- Claim C3 (amended): c_type_add merges by bitwise OR and succeeds,
except: adding long to a dest containing long (but not long long) succeeds
and promotes to long long (the long bit is replaced by the long long bit);
adding long to a dest containing long long fails — in particular, starting
from a dest free of long bits, a first long is added, a second long
promotes to long long, and a third long is rejected (no "long long long");
signed-vs-unsigned and float-vs-int conflicts fail; re-adding a bit already
present fails; and — as the spec further requires — combining two different
storage classes also fails. -/
theorem claim_C3_c_type_add :
    (∀ dest : Nat, dest &&& T_LONG ≠ 0 → dest &&& T_LONG_LONG = 0 →
       c_type_add dest T_LONG = some ((dest ^^^ T_LONG) ||| T_LONG_LONG) ∧
       ((dest ^^^ T_LONG) ||| T_LONG_LONG) &&& T_LONG_LONG ≠ 0) ∧
    (∀ dest : Nat, dest &&& T_LONG_LONG ≠ 0 →
       c_type_add dest T_LONG = none) ∧
    (∀ dest : Nat, dest &&& (T_LONG ||| T_LONG_LONG) = 0 →
       c_type_add dest T_LONG = some (dest ||| T_LONG) ∧
       c_type_add (dest ||| T_LONG) T_LONG = some (dest ||| T_LONG_LONG) ∧
       c_type_add (dest ||| T_LONG_LONG) T_LONG = none) ∧
    (∀ dest : Nat, dest &&& T_UNSIGNED ≠ 0 →
       c_type_add dest T_SIGNED = none) ∧
    (∀ dest : Nat, dest &&& T_SIGNED ≠ 0 →
       c_type_add dest T_UNSIGNED = none) ∧
    (∀ dest : Nat, dest &&& T_INT ≠ 0 → c_type_add dest T_FLOAT = none) ∧
    (∀ dest : Nat, dest &&& T_FLOAT ≠ 0 → c_type_add dest T_INT = none) ∧
    (∀ dest newt : Nat, newt ≠ T_LONG → dest &&& newt ≠ 0 →
       c_type_add dest newt = none) ∧
    (∀ dest newt : Nat, dest &&& T_MASK_STORAGE_PROPER ≠ 0 →
       newt &&& T_MASK_STORAGE_PROPER ≠ 0 →
       dest &&& T_MASK_STORAGE_PROPER ≠ newt &&& T_MASK_STORAGE_PROPER →
       c_type_add dest newt = none) ∧
    (∀ dest newt : Nat,
       ¬(newt = T_LONG ∧ dest &&& T_LONG_LONG ≠ 0) →
       ¬(newt = T_LONG ∧ dest &&& T_LONG ≠ 0) →
       dest &&& newt = 0 →
       ¬(dest &&& T_SIGNED ≠ 0 ∧ newt &&& T_UNSIGNED ≠ 0) →
       ¬(dest &&& T_UNSIGNED ≠ 0 ∧ newt &&& T_SIGNED ≠ 0) →
       ¬(dest &&& T_FLOAT ≠ 0 ∧ newt &&& T_INT ≠ 0) →
       ¬(dest &&& T_INT ≠ 0 ∧ newt &&& T_FLOAT ≠ 0) →
       ¬(dest &&& T_MASK_STORAGE_PROPER ≠ 0 ∧
         newt &&& T_MASK_STORAGE_PROPER ≠ 0 ∧
         dest &&& T_MASK_STORAGE_PROPER ≠ newt &&& T_MASK_STORAGE_PROPER) →
       c_type_add dest newt = some (dest ||| newt)) := by
  refine ⟨?_, ?_, ?_, ?_, ?_, ?_, ?_, ?_, ?_, ?_⟩
  · intro dest h1 h2
    constructor
    · unfold c_type_add
      simp [h1, h2]
    · rw [or_land_self]
      decide
  · intro dest h1
    unfold c_type_add
    simp [h1]
  · intro dest h
    obtain ⟨hL, hLL⟩ := land_or_eq_zero h
    refine ⟨?_, ?_, ?_⟩
    · unfold c_type_add
      simp_all [T_LONG, T_LONG_LONG, T_SIGNED, T_UNSIGNED, T_FLOAT,
        T_INT, T_MASK_STORAGE_PROPER]
      exact ⟨⟨fun _ => by decide, fun _ => by decide⟩,
        ⟨fun _ => by decide, fun _ => by decide⟩,
        fun _ h2 => absurd (by decide) h2⟩
    · have hbL : (dest ||| T_LONG) &&& T_LONG_LONG = 0 := by
        rw [or_land_distrib, hLL]
        decide
      have hsL : (dest ||| T_LONG) &&& T_LONG = T_LONG :=
        or_land_self dest T_LONG
      have hxL : (dest ||| T_LONG) ^^^ T_LONG = dest := or_xor_cancel hL
      unfold c_type_add
      rw [hbL, hsL, hxL]
      simp [T_LONG, T_LONG_LONG]
    · have hsLL : (dest ||| T_LONG_LONG) &&& T_LONG_LONG = T_LONG_LONG :=
        or_land_self dest T_LONG_LONG
      unfold c_type_add
      rw [hsLL]
      simp [T_LONG, T_LONG_LONG]
  · intro dest h
    by_cases hdup : dest &&& T_SIGNED = 0 <;>
      · unfold c_type_add
        simp_all [T_SIGNED, T_UNSIGNED, T_LONG, T_LONG_LONG]
  · intro dest h
    by_cases hdup : dest &&& T_UNSIGNED = 0 <;>
      · unfold c_type_add
        simp_all [T_SIGNED, T_UNSIGNED, T_LONG, T_LONG_LONG]
  · intro dest h
    by_cases hdup : dest &&& T_FLOAT = 0 <;>
      · unfold c_type_add
        simp_all [T_FLOAT, T_INT, T_LONG, T_LONG_LONG]
  · intro dest h
    by_cases hdup : dest &&& T_INT = 0 <;>
      · unfold c_type_add
        simp_all [T_FLOAT, T_INT, T_LONG, T_LONG_LONG]
  · intro dest newt h1 h2
    unfold c_type_add
    simp [h1, h2]
  · intro dest newt h1 h2 h3
    unfold c_type_add
    have hl : newt ≠ T_LONG := by
      intro he
      apply h2
      rw [he]
      decide
    split
    · rfl
    · split
      · next hc =>
        exfalso
        simp at hc
        exact hl hc.1
      · split
        · rfl
        · split
          · rfl
          · split
            · rfl
            · split
              · rfl
              · next h5 => simp_all
  · intro dest newt h0 h1 h2 h3 h4 h5 h6 h7
    unfold c_type_add
    split
    · next hc =>
      exfalso
      apply h0
      simpa using hc
    · split
      · next hc =>
        exfalso
        apply h1
        simpa using hc
      · split
        · next hc => simp_all
        · split
          · next hc =>
            exfalso
            rcases (by simpa using hc : _ ∨ _) with hc1 | hc2
            · exact h3 hc1
            · exact h4 hc2
          · split
            · next hc =>
              exfalso
              rcases (by simpa using hc : _ ∨ _) with hc1 | hc2
              · exact h5 hc1
              · exact h6 hc2
            · split
              · next hc =>
                exfalso
                apply h7
                simp at hc
                exact ⟨hc.1.1, hc.1.2, hc.2⟩
              · rfl

mutual

/-- Substituting a placeholder-free AST for the placeholders leaves a
placeholder-free AST. -/
theorem substPlaceholder_phFree (t : PAst) (ht : t.hasPlaceholder = false) :
    ∀ d : PAst, (substPlaceholder t d).hasPlaceholder = false
  | .placeholder => by simpa [substPlaceholder] using ht
  | .leaf tid => by simp [substPlaceholder, PAst.hasPlaceholder]
  | .parent tid cs => by
    simp only [substPlaceholder, PAst.hasPlaceholder]
    exact substPlaceholderList_phFree t ht cs

/-- List version of substPlaceholder_phFree. -/
theorem substPlaceholderList_phFree (t : PAst) (ht : t.hasPlaceholder = false) :
    ∀ cs : List PAst,
      hasPlaceholderList (substPlaceholderList t cs) = false
  | [] => by simp [substPlaceholderList, hasPlaceholderList]
  | c :: cs => by
    simp only [substPlaceholderList, hasPlaceholderList, Bool.or_eq_false_iff]
    exact ⟨substPlaceholder_phFree t ht c, substPlaceholderList_phFree t ht cs⟩

end

/-- Claim C4: c_ast_patch_placeholder replaces every K_PLACEHOLDER node of
decl_ast with type_ast, but only when all three preconditions hold —
type_ast has no parent, the depth of type_ast is strictly less than the
depth of decl_ast, and decl_ast still contains a placeholder; if any
precondition fails, the declaration's AST is returned structurally
unchanged.  When the patch happens with a placeholder-free type_ast, the
result is placeholder-free (every placeholder was replaced). -/
theorem claim_C4_patch_placeholder :
    ∀ type_ast decl_ast : PatchedAst,
      ((type_ast.parented = false ∧ type_ast.depth < decl_ast.depth ∧
        decl_ast.ast.hasPlaceholder = true) →
        c_ast_patch_placeholder type_ast decl_ast =
          substPlaceholder type_ast.ast decl_ast.ast ∧
        (type_ast.ast.hasPlaceholder = false →
          (c_ast_patch_placeholder type_ast decl_ast).hasPlaceholder =
            false)) ∧
      (¬(type_ast.parented = false ∧ type_ast.depth < decl_ast.depth ∧
         decl_ast.ast.hasPlaceholder = true) →
        c_ast_patch_placeholder type_ast decl_ast = decl_ast.ast) := by
  intro type_ast decl_ast
  constructor
  · rintro ⟨h1, h2, h3⟩
    have heq : c_ast_patch_placeholder type_ast decl_ast =
        substPlaceholder type_ast.ast decl_ast.ast := by
      unfold c_ast_patch_placeholder
      simp [h1, h2, h3]
    refine ⟨heq, fun ht => ?_⟩
    rw [heq]
    exact substPlaceholder_phFree _ ht _
  · intro hno
    unfold c_ast_patch_placeholder
    split
    · next hc =>
      exfalso
      apply hno
      simp only [Bool.and_eq_true, Bool.not_eq_true', decide_eq_true_eq] at hc
      exact ⟨hc.1.1, hc.1.2, hc.2⟩
    · rfl

/-- Claim C5: graph_token_c returns the token unchanged under alternative
tokens and under no-graph mode; in digraph mode a changed (digraph) spelling
can be returned only when the active language is C95 or later; in trigraph
mode a changed (trigraph) spelling can be returned only when the active
language is between C89 and C++14 inclusive — so in every other case,
including trigraph mode in C++17 or later, the token is returned
unchanged. -/
theorem claim_C5_graph_token_c :
    ∀ (alt : Bool) (graph : CGraph) (lang : Nat) (token : String),
      (alt = true → graph_token_c alt graph lang token = token) ∧
      (graph = CGraph.none → graph_token_c alt graph lang token = token) ∧
      (graph = CGraph.di → graph_token_c alt graph lang token ≠ token →
        LANG_C_95 ≤ lang) ∧
      (graph = CGraph.tri → graph_token_c alt graph lang token ≠ token →
        LANG_C_89 ≤ lang ∧ lang ≤ LANG_CPP_14) := by
  intro alt graph lang token
  refine ⟨?_, ?_, ?_, ?_⟩
  · intro h
    subst h
    simp [graph_token_c]
  · intro h
    subst h
    cases alt <;> simp [graph_token_c]
  · intro h hne
    subst h
    by_cases h95 : LANG_C_95 ≤ lang
    · exact h95
    · exfalso
      apply hne
      cases alt <;> simp [graph_token_c, h95]
  · intro h hne
    subst h
    by_cases hok : LANG_C_89 ≤ lang ∧ lang ≤ LANG_CPP_14
    · exact hok
    · exfalso
      apply hne
      cases alt <;> simp [graph_token_c, hok]

/-- Bit arithmetic helper: the or of three parts each disjoint from v is
disjoint from v. -/
theorem or3_land_eq_zero (x y z v : Nat) (hx : x &&& v = 0)
    (hy : y &&& v = 0) (hz : z &&& v = 0) : (x ||| y ||| z) &&& v = 0 := by
  apply Nat.eq_of_testBit_eq
  intro i
  have hx' := congrArg (fun n => Nat.testBit n i) hx
  have hy' := congrArg (fun n => Nat.testBit n i) hy
  have hz' := congrArg (fun n => Nat.testBit n i) hz
  simp only [Nat.testBit_land, Nat.testBit_or, Nat.zero_testBit] at *
  revert hx' hy' hz'
  cases Nat.testBit x i <;> cases Nat.testBit y i <;>
    cases Nat.testBit z i <;> cases Nat.testBit v i <;> simp

/-- The keyword "virtual" can appear among a tid's printed keywords only when
the tid has the T_VIRTUAL bit. -/
theorem virtual_not_mem_parts (tid : Nat) (h : tid &&& T_VIRTUAL = 0) :
    "virtual" ∉ c_tid_name_parts tid := by
  intro hmem
  simp only [c_tid_name_parts, List.mem_map, List.mem_filter] at hmem
  obtain ⟨p, ⟨hp, hbit⟩, heq⟩ := hmem
  have honly : ∀ q ∈ tidWords, q.2 = "virtual" → q.1 = T_VIRTUAL := by decide
  have hv := honly p hp heq
  rw [hv] at hbit
  simp [h] at hbit

/-- Claim C9: for a function-like node, when the type contains noexcept and
the active language is older than C++11, the printed exception segment is
throw() and not noexcept; when the type contains throw() and the language is
C++11 or later, it is noexcept and not throw(); and the printer never emits
both for one node. -/
theorem claim_C9_noexcept_throw :
    ∀ (type0 : CType) (lang : Nat),
      (lang < LANG_CPP_11 → type0.stids &&& TS_NOEXCEPT ≠ 0 →
        g_fn_tail_exception_part (g_fn_extract type0 lang) = [" throw()"]) ∧
      (LANG_CPP_11 ≤ lang → type0.stids &&& TS_THROW ≠ 0 →
        g_fn_tail_exception_part (g_fn_extract type0 lang) = [" noexcept"]) ∧
      (∀ f : FnTailFlags,
        ¬(" noexcept" ∈ g_fn_tail_exception_part f ∧
          " throw()" ∈ g_fn_tail_exception_part f)) := by
  intro type0 lang
  refine ⟨?_, ?_, ?_⟩
  · intro hlang hbit
    simp [g_fn_extract, g_fn_tail_exception_part, hlang, hbit]
  · intro hlang hbit
    have hlang' : ¬(lang < LANG_CPP_11) := by omega
    simp [g_fn_extract, g_fn_tail_exception_part, hlang', hbit]
  · intro f
    rintro ⟨h1, h2⟩
    unfold g_fn_tail_exception_part at h1 h2
    split at h1 <;> simp_all

/-- Claim C10: for a function-like node whose type contains both the final
and override bits, the printed virtual-specifier segment is final alone
(override is suppressed); and whenever override or final is printed, the
virtual bit has been stripped from the printed type, so — under the sector
discipline that keeps the base-type and attribute fields off the
storage-class sector's virtual bit — "virtual" never appears among the
printed type's keywords together with override or final. -/
theorem claim_C10_override_final_virtual :
    ∀ (type0 : CType) (lang : Nat),
      (type0.stids &&& TS_FINAL ≠ 0 → type0.stids &&& TS_OVERRIDE ≠ 0 →
        g_fn_tail_vf_part (g_fn_extract type0 lang) = [" final"]) ∧
      ((" override" ∈ g_fn_tail_vf_part (g_fn_extract type0 lang) ∨
        " final" ∈ g_fn_tail_vf_part (g_fn_extract type0 lang)) →
       type0.btids &&& T_VIRTUAL = 0 → type0.atids &&& T_VIRTUAL = 0 →
       "virtual" ∉ c_type_name_parts ((g_fn_extract type0 lang).type)) := by
  intro type0 lang
  constructor
  · intro hf ho
    simp [g_fn_extract, g_fn_tail_vf_part, hf, ho]
  · intro hmem hb ha
    have hvf : (g_fn_extract type0 lang).is_override = true ∨
        (g_fn_extract type0 lang).is_final = true := by
      rcases hmem with h | h <;>
        · unfold g_fn_tail_vf_part at h
          by_cases h1 : (g_fn_extract type0 lang).is_override = true
          · exact Or.inl h1
          · simp only [Bool.not_eq_true] at h1
            simp only [h1, if_false] at h
            by_cases h2 : (g_fn_extract type0 lang).is_final = true
            · exact Or.inr h2
            · simp only [Bool.not_eq_true] at h2
              simp only [h2, if_false] at h
              split at h <;> simp_all
    have hstids : (g_fn_extract type0 lang).type.stids &&& T_VIRTUAL = 0 := by
      have hcond : ((!(type0.stids &&& TS_FINAL != 0)) &&
          (type0.stids &&& TS_OVERRIDE != 0) ||
          (type0.stids &&& TS_FINAL != 0)) = true := by
        rcases hvf with h | h <;>
          · simp only [g_fn_extract] at h
            simp_all [Bool.or_eq_true]
      simp only [g_fn_extract]
      simp only [Bool.or_eq_true] at hcond
      rcases hcond with h | h
      · simp only [Bool.and_eq_true] at h
        simp only [h.1, h.2, Bool.true_and, Bool.or_true, Bool.true_or,
          if_pos]
        rw [Nat.land_assoc]
        have : c_tid_compl (TS_MASK_QUALIFIER ||| TS_DEFAULT ||| TS_DELETE |||
            TS_FINAL ||| TS_NOEXCEPT ||| TS_OVERRIDE ||| TS_PURE_VIRTUAL |||
            TS_THROW ||| TS_MASK_REF_QUALIFIER ||| TS_VIRTUAL) &&&
            T_VIRTUAL = 0 := by decide
        rw [this]
        simp
      · simp only [h, Bool.or_true, if_pos]
        rw [Nat.land_assoc]
        have : c_tid_compl (TS_MASK_QUALIFIER ||| TS_DEFAULT ||| TS_DELETE |||
            TS_FINAL ||| TS_NOEXCEPT ||| TS_OVERRIDE ||| TS_PURE_VIRTUAL |||
            TS_THROW ||| TS_MASK_REF_QUALIFIER ||| TS_VIRTUAL) &&&
            T_VIRTUAL = 0 := by decide
        rw [this]
        simp
    apply virtual_not_mem_parts
    have hat : (g_fn_extract type0 lang).type.atids &&& T_VIRTUAL = 0 := by
      simp only [g_fn_extract]
      rw [Nat.land_assoc]
      have : c_tid_compl TA_ANY_MSC_CALL &&& T_VIRTUAL = T_VIRTUAL := by
        decide
      rw [this]
      exact ha
    have hbt : (g_fn_extract type0 lang).type.btids &&& T_VIRTUAL = 0 := by
      simp only [g_fn_extract]
      exact hb
    exact or3_land_eq_zero _ _ _ _ hbt hstids hat

/-! NoPH: the placeholder assert is unreachable.  Combinator lemmas. -/

theorem noPH_gpure : NoPH gpure := by
  intro g e h
  simp [gpure] at h

theorem noPH_gemit (s : String) : NoPH (gemit s) := by
  intro g e h
  simp [gemit] at h

theorem noPH_gmodify (f : GState → GState) : NoPH (gmodify f) := by
  intro g e h
  simp [gmodify] at h

theorem noPH_gfail_fuel : NoPH (gfail .fuel) := by
  intro g e h
  unfold gfail at h
  injection h with h1
  exact h1.symm

theorem noPH_gseq {a b : GM} (ha : NoPH a) (hb : NoPH b) :
    NoPH (gseq a b) := by
  intro g e h
  unfold gseq at h
  cases hag : a g with
  | error e1 =>
    rw [hag] at h
    injection h with h1
    exact h1 ▸ ha g e1 hag
  | ok p =>
    obtain ⟨g1, s1⟩ := p
    cases hbg : b g1 with
    | error e2 =>
      simp only [hag, hbg, Except.error.injEq] at h
      exact h ▸ hb g1 e2 hbg
    | ok q =>
      simp [hag, hbg] at h

theorem noPH_gseqs_nil : NoPH (gseqs []) := noPH_gpure

theorem noPH_gseqs_cons {m : GM} {ms : List GM} (hm : NoPH m)
    (hms : NoPH (gseqs ms)) : NoPH (gseqs (m :: ms)) :=
  noPH_gseq hm hms

theorem noPH_gwhen {c : Bool} {m : GM} (hm : NoPH m) : NoPH (gwhen c m) := by
  unfold gwhen
  cases c
  · exact noPH_gpure
  · exact hm

theorem noPH_gget {k : GState → GM} (h : ∀ g, NoPH (k g)) :
    NoPH (gget k) := by
  intro g e hh
  exact h g g e hh

theorem noPH_gparam {m : GM} (hm : NoPH m) : NoPH (gparam m) := by
  intro g e h
  unfold gparam at h
  cases hmg : m (g_init { g.flags with omitType := false } false) with
  | error e1 =>
    rw [hmg] at h
    injection h with h1
    exact h1 ▸ hm _ e1 hmg
  | ok p =>
    rw [hmg] at h
    simp at h

theorem noPH_g_print_space_once : NoPH g_print_space_once := by
  apply noPH_gget
  intro g
  apply noPH_gwhen
  exact noPH_gseq (noPH_gmodify _) (noPH_gemit _)

theorem noPH_g_print_ast_name (ast : GAst) : NoPH (g_print_ast_name ast) := by
  apply noPH_gget
  intro g
  split
  · exact noPH_gmodify _
  · exact noPH_gemit _

theorem noPH_g_print_ast_bit_width (ast : GAst) :
    NoPH (g_print_ast_bit_width ast) :=
  noPH_gwhen (noPH_gemit _)

theorem noPH_g_print_ast_array_size (opts : GOpts) (ast : GAst) :
    NoPH (g_print_ast_array_size opts ast) := by
  unfold g_print_ast_array_size
  apply noPH_gseqs_cons (noPH_gemit _)
  apply noPH_gseqs_cons (noPH_gwhen (noPH_gemit _))
  apply noPH_gseqs_cons
  · split
    · exact noPH_gpure
    · split <;> exact noPH_gemit _
  · exact noPH_gseqs_cons (noPH_gemit _) noPH_gseqs_nil

theorem noPH_g_print_qual_name (opts : GOpts) (anc : List GAst) (ast : GAst) :
    NoPH (g_print_qual_name opts anc ast) := by
  unfold g_print_qual_name
  apply noPH_gseqs_cons
  · split
    · apply noPH_gseq _ (noPH_gemit _)
      apply noPH_gget
      intro g
      exact noPH_gwhen noPH_g_print_space_once
    · exact noPH_gemit _
    · split
      · exact noPH_gseq noPH_g_print_space_once (noPH_gemit _)
      · exact noPH_gemit _
    · split
      · exact noPH_gseq noPH_g_print_space_once (noPH_gemit _)
      · exact noPH_gemit _
    · exact noPH_gpure
  apply noPH_gseqs_cons
  · apply noPH_gwhen
    apply noPH_gseq (noPH_gemit _)
    apply noPH_gget
    intro g
    exact noPH_gwhen (noPH_gemit _)
  exact noPH_gseqs_cons (noPH_g_print_ast_name ast) noPH_gseqs_nil

theorem noPH_g_print_space_ast_name (opts : GOpts) (ast : GAst) :
    NoPH (g_print_space_ast_name opts ast) := by
  unfold g_print_space_ast_name
  apply noPH_gget
  intro g
  split
  · exact noPH_gpure
  · split
    · exact noPH_gemit _
    · apply noPH_gseqs_cons (noPH_gwhen (noPH_gemit _))
      apply noPH_gseqs_cons
      · split <;> exact noPH_gemit _
      · exact noPH_gseqs_cons (noPH_gemit _) noPH_gseqs_nil
    · apply noPH_gseqs_cons noPH_g_print_space_once
      apply noPH_gseqs_cons (noPH_gwhen (noPH_gemit _))
      exact noPH_gseqs_cons (noPH_gemit _) noPH_gseqs_nil
    · exact noPH_gpure
    · apply noPH_gseqs_cons noPH_g_print_space_once
      apply noPH_gseqs_cons (noPH_gwhen (noPH_gemit _))
      exact noPH_gseqs_cons (noPH_gemit _) noPH_gseqs_nil
    · apply noPH_gwhen
      apply noPH_gseq _ (noPH_g_print_ast_name ast)
      apply noPH_gget
      intro g2
      exact noPH_gwhen noPH_g_print_space_once

/-- The phFreeB of a node in terms of its fields. -/
theorem phFreeB_mk (k : GKind) (t : CType) (sn : SName) (c : Option GAst)
    (p : List GAst) (e cs : SName) (asz : Int) (ars bw : Nat) (o : String)
    (ak : AlignKind) (ae : Nat) (aa : Option GAst) :
    GAst.phFreeB (.mk k t sn c p e cs asz ars bw o ak ae aa) =
      ((k != .placeholder) && gPhFreeOpt c && gPhFreeList p &&
        gPhFreeOpt aa) := by
  rfl

set_option maxHeartbeats 1600000 in
/-- The master lemma for claim C1's gibberish side: with a placeholder-free
AST and placeholder-free ancestors, none of the printer's mutual functions
can reach the CASE_K_PLACEHOLDER assert (the only other failure is running
out of embedding fuel). -/
theorem gib_printer_noPH (fuel : Nat) (opts : GOpts) :
    (∀ anc ast, GAst.phFreeB ast = true → ancPhFree anc = true →
      NoPH (g_print_ast fuel opts anc ast)) ∧
    (∀ anc ast, GAst.phFreeB ast = true → ancPhFree anc = true →
      NoPH (g_print_pfix fuel opts anc ast)) ∧
    (∀ comma ps, gPhFreeList ps = true →
      NoPH (g_print_ast_list fuel opts comma ps)) := by
  induction fuel with
  | zero =>
    refine ⟨?_, ?_, ?_⟩
    · intro anc ast _ _
      exact noPH_gfail_fuel
    · intro anc ast _ _
      exact noPH_gfail_fuel
    · intro comma ps _
      exact noPH_gfail_fuel
  | succ fuel ih =>
    obtain ⟨ih1, ih2, ih3⟩ := ih
    refine ⟨?_, ?_, ?_⟩
    · -- g_print_ast
      intro anc ast hast hanc
      obtain ⟨k, type, sn, child, params, ecsn, csn, asz, ars, bw, tok, ak,
        ae, aa⟩ := ast
      have hR2 := ih2 anc _ hast hanc
      have hanc2 : ancPhFree
          (GAst.mk k type sn child params ecsn csn asz ars bw tok ak ae aa ::
            anc) = true := by
        simp only [ancPhFree, List.all_cons, Bool.and_eq_true]
        exact ⟨hast, hanc⟩
      rw [phFreeB_mk] at hast
      simp only [Bool.and_eq_true, bne_iff_ne, ne_eq] at hast
      obtain ⟨⟨⟨hk, hch⟩, hpar⟩, haa⟩ := hast
      have hRc : ∀ c, child = some c →
          NoPH (g_print_ast fuel opts
            (GAst.mk k type sn child params ecsn csn asz ars bw tok ak ae aa ::
              anc) c) := by
        intro c hc
        refine ih1 _ c ?_ hanc2
        rw [hc] at hch
        exact hch
      cases k
      all_goals simp only [g_print_ast, GAst.kind]
      case placeholder => exact absurd rfl hk
      case builtin =>
        refine noPH_gseqs_cons ?_
          (noPH_gseqs_cons (noPH_g_print_space_ast_name _ _)
          (noPH_gseqs_cons (noPH_g_print_ast_bit_width _) noPH_gseqs_nil))
        apply noPH_gget
        intro g
        exact noPH_gwhen (noPH_gemit _)
      case ecsu =>
        apply noPH_gget
        intro g
        refine noPH_gseqs_cons (noPH_gemit _)
          (noPH_gseqs_cons (noPH_gwhen (noPH_gemit _))
          (noPH_gseqs_cons ?_
          (noPH_gseqs_cons (noPH_gwhen (noPH_gemit _))
          (noPH_gseqs_cons (noPH_g_print_space_ast_name _ _)
            noPH_gseqs_nil))))
        cases child with
        | none => exact noPH_gpure
        | some c => exact noPH_gseq (noPH_gemit _) (hRc c rfl)
      case name =>
        refine noPH_gseqs_cons (noPH_gwhen (noPH_gemit _))
          (noPH_gseqs_cons ?_ noPH_gseqs_nil)
        apply noPH_gget
        intro g
        exact noPH_gwhen
          (noPH_gseq (noPH_gwhen (noPH_gemit _)) (noPH_g_print_ast_name _))
      case tdef =>
        apply noPH_gget
        intro g
        refine noPH_gseqs_cons ?_
          (noPH_gseqs_cons (noPH_g_print_space_ast_name _ _)
          (noPH_gseqs_cons (noPH_g_print_ast_bit_width _) noPH_gseqs_nil))
        apply noPH_gwhen
        refine noPH_gseqs_cons (noPH_gwhen (noPH_gemit _))
          (noPH_gseqs_cons ?_
          (noPH_gseqs_cons ?_
          (noPH_gseqs_cons (noPH_gwhen (noPH_gemit _))
          (noPH_gseqs_cons (noPH_gwhen (noPH_gemit _)) noPH_gseqs_nil))))
        · split
          · exact noPH_gemit _
          · exact noPH_gwhen (noPH_gemit _)
        · apply noPH_gget
          intro g1
          refine noPH_gseqs_cons (noPH_gmodify _)
            (noPH_gseqs_cons ?_
            (noPH_gseqs_cons (noPH_gmodify _) noPH_gseqs_nil))
          cases child with
          | none => exact noPH_gpure
          | some c => exact noPH_g_print_ast_name c
      case variadic => exact noPH_gemit _
      case ptr =>
        refine noPH_gseqs_cons ?_
          (noPH_gseqs_cons ?_
          (noPH_gseqs_cons ?_
          (noPH_gseqs_cons ?_ noPH_gseqs_nil)))
        · apply noPH_gget
          intro g
          exact noPH_gwhen (noPH_gwhen (noPH_gemit _))
        · cases child with
          | none => exact noPH_gpure
          | some c => exact hRc c rfl
        · apply noPH_gget
          intro g
          exact noPH_gwhen noPH_g_print_space_once
        · apply noPH_gget
          intro g
          exact noPH_gwhen (noPH_g_print_qual_name _ _ _)
      case ref =>
        refine noPH_gseqs_cons ?_
          (noPH_gseqs_cons ?_
          (noPH_gseqs_cons ?_
          (noPH_gseqs_cons ?_ noPH_gseqs_nil)))
        · apply noPH_gget
          intro g
          exact noPH_gwhen (noPH_gwhen (noPH_gemit _))
        · cases child with
          | none => exact noPH_gpure
          | some c => exact hRc c rfl
        · apply noPH_gget
          intro g
          exact noPH_gwhen noPH_g_print_space_once
        · apply noPH_gget
          intro g
          exact noPH_gwhen (noPH_g_print_qual_name _ _ _)
      case rref =>
        refine noPH_gseqs_cons ?_
          (noPH_gseqs_cons ?_
          (noPH_gseqs_cons ?_
          (noPH_gseqs_cons ?_ noPH_gseqs_nil)))
        · apply noPH_gget
          intro g
          exact noPH_gwhen (noPH_gwhen (noPH_gemit _))
        · cases child with
          | none => exact noPH_gpure
          | some c => exact hRc c rfl
        · apply noPH_gget
          intro g
          exact noPH_gwhen noPH_g_print_space_once
        · apply noPH_gget
          intro g
          exact noPH_gwhen (noPH_g_print_qual_name _ _ _)
      case ptrMbr =>
        refine noPH_gseqs_cons ?_
          (noPH_gseqs_cons ?_ noPH_gseqs_nil)
        · cases child with
          | none => exact noPH_gpure
          | some c => exact hRc c rfl
        · apply noPH_gget
          intro g
          exact noPH_gwhen
            (noPH_gseq (noPH_gemit _) (noPH_g_print_qual_name _ _ _))
      case ctor =>
        refine noPH_gseqs_cons (noPH_gwhen (noPH_gmodify _))
          (noPH_gseqs_cons (noPH_gwhen (noPH_gemit _))
          (noPH_gseqs_cons
            (noPH_gwhen (noPH_gseq (noPH_gwhen (noPH_gemit _))
              (noPH_gemit _)))
          (noPH_gseqs_cons ?_
          (noPH_gseqs_cons (noPH_gwhen (noPH_gemit _))
          (noPH_gseqs_cons ?_
          (noPH_gseqs_cons (noPH_gemit _) noPH_gseqs_nil))))))
        · cases child with
          | none => exact noPH_gpure
          | some c => exact hRc c rfl
        · apply noPH_gget
          intro g
          split
          · refine noPH_gseqs_cons (noPH_gmodify _)
              (noPH_gseqs_cons ?_
              (noPH_gseqs_cons hR2 noPH_gseqs_nil))
            apply noPH_gget
            intro g1
            exact noPH_gwhen noPH_g_print_space_once
          · exact noPH_gpure
      case dtor =>
        refine noPH_gseqs_cons (noPH_gwhen (noPH_gmodify _))
          (noPH_gseqs_cons (noPH_gwhen (noPH_gemit _))
          (noPH_gseqs_cons
            (noPH_gwhen (noPH_gseq (noPH_gwhen (noPH_gemit _))
              (noPH_gemit _)))
          (noPH_gseqs_cons ?_
          (noPH_gseqs_cons (noPH_gwhen (noPH_gemit _))
          (noPH_gseqs_cons ?_
          (noPH_gseqs_cons (noPH_gemit _) noPH_gseqs_nil))))))
        · cases child with
          | none => exact noPH_gpure
          | some c => exact hRc c rfl
        · apply noPH_gget
          intro g
          split
          · refine noPH_gseqs_cons (noPH_gmodify _)
              (noPH_gseqs_cons ?_
              (noPH_gseqs_cons hR2 noPH_gseqs_nil))
            apply noPH_gget
            intro g1
            exact noPH_gwhen noPH_g_print_space_once
          · exact noPH_gpure
      case udefConv =>
        refine noPH_gseqs_cons (noPH_gwhen (noPH_gmodify _))
          (noPH_gseqs_cons (noPH_gwhen (noPH_gemit _))
          (noPH_gseqs_cons
            (noPH_gwhen (noPH_gseq (noPH_gwhen (noPH_gemit _))
              (noPH_gemit _)))
          (noPH_gseqs_cons ?_
          (noPH_gseqs_cons (noPH_gwhen (noPH_gemit _))
          (noPH_gseqs_cons ?_
          (noPH_gseqs_cons (noPH_gemit _) noPH_gseqs_nil))))))
        · cases child with
          | none => exact noPH_gpure
          | some c => exact hRc c rfl
        · apply noPH_gget
          intro g
          split
          · refine noPH_gseqs_cons (noPH_gmodify _)
              (noPH_gseqs_cons ?_
              (noPH_gseqs_cons hR2 noPH_gseqs_nil))
            apply noPH_gget
            intro g1
            exact noPH_gwhen noPH_g_print_space_once
          · exact noPH_gpure
      case func =>
        refine noPH_gseqs_cons (noPH_gwhen (noPH_gmodify _))
          (noPH_gseqs_cons (noPH_gwhen (noPH_gemit _))
          (noPH_gseqs_cons
            (noPH_gwhen (noPH_gseq (noPH_gwhen (noPH_gemit _))
              (noPH_gemit _)))
          (noPH_gseqs_cons ?_
          (noPH_gseqs_cons (noPH_gwhen (noPH_gemit _))
          (noPH_gseqs_cons ?_
          (noPH_gseqs_cons (noPH_gemit _) noPH_gseqs_nil))))))
        · cases child with
          | none => exact noPH_gpure
          | some c => exact hRc c rfl
        · apply noPH_gget
          intro g
          split
          · refine noPH_gseqs_cons (noPH_gmodify _)
              (noPH_gseqs_cons ?_
              (noPH_gseqs_cons hR2 noPH_gseqs_nil))
            apply noPH_gget
            intro g1
            exact noPH_gwhen noPH_g_print_space_once
          · exact noPH_gpure
      case oper =>
        refine noPH_gseqs_cons (noPH_gwhen (noPH_gmodify _))
          (noPH_gseqs_cons (noPH_gwhen (noPH_gemit _))
          (noPH_gseqs_cons
            (noPH_gwhen (noPH_gseq (noPH_gwhen (noPH_gemit _))
              (noPH_gemit _)))
          (noPH_gseqs_cons ?_
          (noPH_gseqs_cons (noPH_gwhen (noPH_gemit _))
          (noPH_gseqs_cons ?_
          (noPH_gseqs_cons (noPH_gemit _) noPH_gseqs_nil))))))
        · cases child with
          | none => exact noPH_gpure
          | some c => exact hRc c rfl
        · apply noPH_gget
          intro g
          split
          · refine noPH_gseqs_cons (noPH_gmodify _)
              (noPH_gseqs_cons ?_
              (noPH_gseqs_cons hR2 noPH_gseqs_nil))
            apply noPH_gget
            intro g1
            exact noPH_gwhen noPH_g_print_space_once
          · exact noPH_gpure
      case udefLit =>
        refine noPH_gseqs_cons (noPH_gwhen (noPH_gmodify _))
          (noPH_gseqs_cons (noPH_gwhen (noPH_gemit _))
          (noPH_gseqs_cons
            (noPH_gwhen (noPH_gseq (noPH_gwhen (noPH_gemit _))
              (noPH_gemit _)))
          (noPH_gseqs_cons ?_
          (noPH_gseqs_cons (noPH_gwhen (noPH_gemit _))
          (noPH_gseqs_cons ?_
          (noPH_gseqs_cons (noPH_gemit _) noPH_gseqs_nil))))))
        · cases child with
          | none => exact noPH_gpure
          | some c => exact hRc c rfl
        · apply noPH_gget
          intro g
          split
          · refine noPH_gseqs_cons (noPH_gmodify _)
              (noPH_gseqs_cons ?_
              (noPH_gseqs_cons hR2 noPH_gseqs_nil))
            apply noPH_gget
            intro g1
            exact noPH_gwhen noPH_g_print_space_once
          · exact noPH_gpure
      case array =>
        refine noPH_gseqs_cons (noPH_gwhen (noPH_gmodify _))
          (noPH_gseqs_cons (noPH_gwhen (noPH_gemit _))
          (noPH_gseqs_cons
            (noPH_gwhen (noPH_gseq (noPH_gwhen (noPH_gemit _))
              (noPH_gemit _)))
          (noPH_gseqs_cons ?_
          (noPH_gseqs_cons (noPH_gwhen (noPH_gemit _))
          (noPH_gseqs_cons ?_
          (noPH_gseqs_cons (noPH_gemit _) noPH_gseqs_nil))))))
        · cases child with
          | none => exact noPH_gpure
          | some c => exact hRc c rfl
        · apply noPH_gget
          intro g
          split
          · refine noPH_gseqs_cons (noPH_gmodify _)
              (noPH_gseqs_cons ?_
              (noPH_gseqs_cons hR2 noPH_gseqs_nil))
            apply noPH_gget
            intro g1
            exact noPH_gwhen noPH_g_print_space_once
          · exact noPH_gpure
      case block =>
        refine noPH_gseqs_cons (noPH_gwhen (noPH_gmodify _))
          (noPH_gseqs_cons (noPH_gwhen (noPH_gemit _))
          (noPH_gseqs_cons
            (noPH_gwhen (noPH_gseq (noPH_gwhen (noPH_gemit _))
              (noPH_gemit _)))
          (noPH_gseqs_cons ?_
          (noPH_gseqs_cons (noPH_gwhen (noPH_gemit _))
          (noPH_gseqs_cons ?_
          (noPH_gseqs_cons (noPH_gemit _) noPH_gseqs_nil))))))
        · cases child with
          | none => exact noPH_gpure
          | some c => exact hRc c rfl
        · apply noPH_gget
          intro g
          split
          · refine noPH_gseqs_cons (noPH_gmodify _)
              (noPH_gseqs_cons ?_
              (noPH_gseqs_cons hR2 noPH_gseqs_nil))
            apply noPH_gget
            intro g1
            exact noPH_gwhen noPH_g_print_space_once
          · exact noPH_gpure
    · -- g_print_pfix
      intro anc ast hast hanc
      obtain ⟨k, type, sn, child, params, ecsn, csn, asz, ars, bw, tok, ak,
        ae, aa⟩ := ast
      rw [phFreeB_mk] at hast
      simp only [Bool.and_eq_true, bne_iff_ne, ne_eq] at hast
      obtain ⟨⟨⟨hk, hch⟩, hpar⟩, haa⟩ := hast
      have hRlist : NoPH (g_print_ast_list fuel opts false params) :=
        ih3 false params hpar
      cases anc with
      | nil =>
        simp only [g_print_pfix, GAst.kind]
        refine noPH_gseq ?_ ?_
        · exact noPH_gseqs_cons (noPH_gwhen (noPH_gemit _))
            (noPH_gseqs_cons (noPH_g_print_space_ast_name _ _)
            (noPH_gseqs_cons (noPH_gwhen (noPH_gemit _)) noPH_gseqs_nil))
        · cases k
          case array => exact noPH_g_print_ast_array_size _ _
          case placeholder => exact absurd rfl hk
          all_goals first
            | exact noPH_gseqs_cons (noPH_gemit _)
                (noPH_gseqs_cons hRlist
                (noPH_gseqs_cons (noPH_gemit _) noPH_gseqs_nil))
            | exact noPH_gemit _
      | cons parent rest =>
        simp only [ancPhFree, List.all_cons, Bool.and_eq_true] at hanc
        obtain ⟨hparB, hrest⟩ := hanc
        obtain ⟨pk, ptype, psn, pchild, pparams, pecsn, pcsn, pasz, pars2,
          pbw, ptok, pak, pae, paa⟩ := parent
        have hRparent : NoPH (g_print_pfix fuel opts rest
            (GAst.mk pk ptype psn pchild pparams pecsn pcsn pasz pars2 pbw
              ptok pak pae paa)) :=
          ih2 rest _ hparB hrest
        simp only [g_print_pfix, GAst.kind]
        refine noPH_gseq ?_ ?_
        · cases pk
          case placeholder => simp [phFreeB_mk] at hparB
          case ptr =>
            refine noPH_gseqs_cons ?_
              (noPH_gseqs_cons (noPH_g_print_qual_name _ _ _)
              (noPH_gseqs_cons (noPH_gwhen hRparent)
              (noPH_gseqs_cons (noPH_gwhen (noPH_gemit _)) noPH_gseqs_nil)))
            split
            · exact noPH_gemit _
            · exact noPH_gpure
            · exact noPH_gseq (noPH_gemit _) (noPH_gwhen (noPH_gemit _))
          case ptrMbr =>
            refine noPH_gseqs_cons ?_
              (noPH_gseqs_cons (noPH_g_print_qual_name _ _ _)
              (noPH_gseqs_cons (noPH_gwhen hRparent)
              (noPH_gseqs_cons (noPH_gwhen (noPH_gemit _)) noPH_gseqs_nil)))
            split
            · exact noPH_gemit _
            · exact noPH_gpure
            · exact noPH_gseq (noPH_gemit _) (noPH_gwhen (noPH_gemit _))
          case ref =>
            refine noPH_gseqs_cons ?_
              (noPH_gseqs_cons (noPH_g_print_qual_name _ _ _)
              (noPH_gseqs_cons (noPH_gwhen hRparent)
              (noPH_gseqs_cons (noPH_gwhen (noPH_gemit _)) noPH_gseqs_nil)))
            split
            · exact noPH_gemit _
            · exact noPH_gpure
            · exact noPH_gseq (noPH_gemit _) (noPH_gwhen (noPH_gemit _))
          case rref =>
            refine noPH_gseqs_cons ?_
              (noPH_gseqs_cons (noPH_g_print_qual_name _ _ _)
              (noPH_gseqs_cons (noPH_gwhen hRparent)
              (noPH_gseqs_cons (noPH_gwhen (noPH_gemit _)) noPH_gseqs_nil)))
            split
            · exact noPH_gemit _
            · exact noPH_gpure
            · exact noPH_gseq (noPH_gemit _) (noPH_gwhen (noPH_gemit _))
          all_goals first
            | exact hRparent
            | exact noPH_gpure
        · cases k
          case array => exact noPH_g_print_ast_array_size _ _
          case placeholder => exact absurd rfl hk
          all_goals first
            | exact noPH_gseqs_cons (noPH_gemit _)
                (noPH_gseqs_cons hRlist
                (noPH_gseqs_cons (noPH_gemit _) noPH_gseqs_nil))
            | exact noPH_gemit _
    · -- g_print_ast_list
      intro comma ps hps
      cases ps with
      | nil => exact noPH_gpure
      | cons p rest =>
        simp only [gPhFreeList, Bool.and_eq_true] at hps
        simp only [g_print_ast_list]
        exact noPH_gseqs_cons (noPH_gwhen (noPH_gemit _))
          (noPH_gseqs_cons (noPH_gparam (ih1 [] p hps.1 rfl))
          (noPH_gseqs_cons (ih3 true rest hps.2) noPH_gseqs_nil))



/-- The phFreeB of an English-model node in terms of its fields. -/
theorem ephFreeB_mk (k : EKind) (t : Nat) (n : Option String)
    (c : Option EAst) (a : List EAst) (asz : Int) (atid : Nat)
    (en cn tn : String) (oo : OpOverload) :
    EAst.phFreeB (.mk k t n c a asz atid en cn tn oo) =
      ((k != .placeholder) && ePhFreeOpt c && ePhFreeList a) := by
  rfl

/-- A placeholder-free English node is not itself a placeholder node. -/
theorem ephFree_kind {ast : EAst} (h : EAst.phFreeB ast = true) :
    EAst.kind ast ≠ EKind.placeholder := by
  obtain ⟨k, t, n, child, args, asz, atid, en, cn, tn, oo⟩ := ast
  rw [ephFreeB_mk] at h
  simp only [Bool.and_eq_true, bne_iff_ne, ne_eq] at h
  simpa [EAst.kind] using h.1.1

/-- The child of a placeholder-free English node is placeholder-free. -/
theorem ephFree_child {ast c : EAst} (h : EAst.phFreeB ast = true)
    (hc : EAst.child ast = some c) : EAst.phFreeB c = true := by
  obtain ⟨k, t, n, child, args, asz, atid, en, cn, tn, oo⟩ := ast
  rw [ephFreeB_mk] at h
  simp only [Bool.and_eq_true] at h
  simp only [EAst.child] at hc
  rw [hc] at h
  exact h.1.2

/-- The argument list of a placeholder-free English node is
placeholder-free. -/
theorem ephFree_args {ast : EAst} (h : EAst.phFreeB ast = true) :
    ePhFreeList (EAst.args ast) = true := by
  obtain ⟨k, t, n, child, args, asz, atid, en, cn, tn, oo⟩ := ast
  rw [ephFreeB_mk] at h
  simp only [Bool.and_eq_true] at h
  exact h.2

mutual

/-- A placeholder-free English AST never makes e_visit reach the
K_PLACEHOLDER assert. -/
theorem e_visit_nph (ast : EAst) (h : EAst.phFreeB ast = true) :
    e_visit ast ≠ Except.error EErr.placeholder := by
  rw [e_visit.eq_def]
  cases hv : e_visitor ast with
  | error e =>
    intro hcontra
    injection hcontra with he
    subst he
    exact e_visitor_nph ast h hv
  | ok s =>
    split
    · rename_i e habs
      exact absurd habs (by simp)
    · rename_i s2 heq
      injection heq with hs2
      subst hs2
      split
      · rename_i c hc
        cases hvc : e_visit c with
        | error e2 =>
          intro hcontra
          injection hcontra with he
          subst he
          exact e_visit_nph c (ephFree_child h hc) hvc
        | ok s2 =>
          simp
      · simp
termination_by (sizeOf ast, 2)
decreasing_by
  · exact Prod.Lex.right _ (by omega)
  · apply Prod.Lex.left
    rename EAst.child ast = some _ => hc
    obtain ⟨k, t, n, child, args, asz, atid, en, cn, tn, oo⟩ := ast
    simp only [EAst.child] at hc
    subst hc
    simp_arith

/-- A placeholder-free node never makes the visitor's own switch reach the
K_PLACEHOLDER assert. -/
theorem e_visitor_nph (ast : EAst) (h : EAst.phFreeB ast = true) :
    e_visitor ast ≠ Except.error EErr.placeholder := by
  rw [e_visitor.eq_def]
  split
  all_goals try simp
  on_goal 4 =>
    rename_i heq
    exact absurd heq (ephFree_kind h)
  · cases hs : e_args_section (EAst.args ast) with
    | error e =>
      intro hcontra
      injection hcontra with he
      subst he
      exact e_args_section_nph (EAst.args ast) (ephFree_args h) hs
    | ok argsText =>
      simp
  · cases hs : e_args_section (EAst.args ast) with
    | error e =>
      intro hcontra
      injection hcontra with he
      subst he
      exact e_args_section_nph (EAst.args ast) (ephFree_args h) hs
    | ok argsText =>
      simp
  · cases hs : e_args_section (EAst.args ast) with
    | error e =>
      intro hcontra
      injection hcontra with he
      subst he
      exact e_args_section_nph (EAst.args ast) (ephFree_args h) hs
    | ok argsText =>
      simp
termination_by (sizeOf ast, 1)
decreasing_by
  all_goals
    (apply Prod.Lex.left
     obtain ⟨k, t, n, child, args, asz, atid, en, cn, tn, oo⟩ := ast
     simp only [EAst.args]
     simp_arith)

/-- A placeholder-free argument list never makes the parenthesized argument
section reach the K_PLACEHOLDER assert. -/
theorem e_args_section_nph (args : List EAst) (h : ePhFreeList args = true) :
    e_args_section args ≠ Except.error EErr.placeholder := by
  rw [e_args_section.eq_def]
  split
  · simp
  · cases hl : e_args_loop false args with
    | error e =>
      intro hcontra
      injection hcontra with he
      subst he
      exact e_args_loop_nph false args h hl
    | ok s =>
      simp
termination_by (sizeOf args, 1)
decreasing_by
  all_goals exact Prod.Lex.right _ (by omega)

/-- A placeholder-free argument list never makes the argument loop reach the
K_PLACEHOLDER assert. -/
theorem e_args_loop_nph (comma : Bool) (args : List EAst)
    (h : ePhFreeList args = true) :
    e_args_loop comma args ≠ Except.error EErr.placeholder := by
  cases args with
  | nil => simp [e_args_loop]
  | cons a rest =>
    simp only [ePhFreeList, Bool.and_eq_true] at h
    simp only [e_args_loop]
    cases hv : e_visit a with
    | error e =>
      intro hcontra
      injection hcontra with he
      subst he
      exact e_visit_nph a h.1 hv
    | ok atext =>
      cases hr : e_args_loop true rest with
      | error e2 =>
        intro hcontra
        injection hcontra with he
        subst he
        exact e_args_loop_nph true rest h.2 hr
      | ok rtext =>
        simp
termination_by (sizeOf args, 0)
decreasing_by
  · apply Prod.Lex.left
    rename args = a :: rest => harc
    subst harc
    simp_arith
  · apply Prod.Lex.left
    rename args = a :: rest => harc
    subst harc
    simp_arith

end

/-- The alignment AST of a placeholder-free node is placeholder-free. -/
theorem phFree_alignAst {ast t : GAst} (h : GAst.phFreeB ast = true)
    (ht : GAst.alignAst ast = some t) : GAst.phFreeB t = true := by
  obtain ⟨k, type, sn, child, params, ecsn, csn, asz, ars, bw, tok, ak,
    ae, aa⟩ := ast
  rw [phFreeB_mk] at h
  simp only [Bool.and_eq_true] at h
  simp only [GAst.alignAst] at ht
  rw [ht] at h
  exact h.2

/-- c_ast_gibberish_impl can only fail for want of fuel when the AST is
placeholder-free. -/
theorem c_ast_gibberish_impl_nph (fuel : Nat) (opts : GOpts) (ast : GAst)
    (flags : GFlags) (pt : Bool) (hast : GAst.phFreeB ast = true) :
    ∀ e, c_ast_gibberish_impl fuel opts ast flags pt = .error e →
      e = PErr.fuel := by
  intro e h
  have hm := (gib_printer_noPH fuel opts).1 [] ast hast rfl
  simp only [c_ast_gibberish_impl] at h
  split at h
  · rename_i e1 heq
    injection h with h1
    exact h1 ▸ hm _ e1 heq
  · exact absurd h (by simp)

/-- c_ast_gibberish can only fail for want of fuel when the AST is
placeholder-free (the alignment sub-AST included). -/
theorem c_ast_gibberish_nph (fuel : Nat) (opts : GOpts) :
    ∀ ast flags, GAst.phFreeB ast = true →
      ∀ e, c_ast_gibberish fuel opts ast flags = .error e →
        e = PErr.fuel := by
  induction fuel with
  | zero =>
    intro ast flags _ e h
    simp only [c_ast_gibberish] at h
    injection h with h1
    exact h1.symm
  | succ fuel ih =>
    intro ast flags hast e h
    simp only [c_ast_gibberish] at h
    split at h
    · rename_i e1 heq
      injection h with h1
      subst h1
      split at heq
      · exact absurd heq (by simp)
      · split at heq
        · exact absurd heq (by simp)
        · exact absurd heq (by simp)
        · split at heq
          · exact absurd heq (by simp)
          · rename_i t hta
            split at heq
            · rename_i e2 heq2
              injection heq with h2
              subst h2
              exact ih t gibDeclFlags (phFree_alignAst hast hta) e2 heq2
            · exact absurd heq (by simp)
    · rename_i p heq
      split at h
      · rename_i e2 heq2
        injection h with h2
        exact h2 ▸ c_ast_gibberish_impl_nph fuel opts ast flags false hast
          e2 heq2
      · exact absurd h (by simp)

/-- c_typedef_gibberish can only fail for want of fuel when the typedef's
AST is placeholder-free. -/
theorem c_typedef_gibberish_nph (fuel : Nat) (opts : GOpts) (tdef : GTypedef)
    (flags : GFlags) (hast : GAst.phFreeB (GTypedef.ast tdef) = true) :
    ∀ e, c_typedef_gibberish fuel opts tdef flags = .error e →
      e = PErr.fuel := by
  intro e h
  simp only [c_typedef_gibberish] at h
  split at h
  · rename_i e1 heq
    injection h with h1
    exact h1 ▸ c_ast_gibberish_impl_nph fuel opts (GTypedef.ast tdef) _ _
      hast e1 heq
  · exact absurd h (by simp)

/-- C1: no completed (placeholder-free) AST handed to any of the three
printers — c_ast_gibberish, c_typedef_gibberish, c_ast_english — ever
reaches the CASE_K_PLACEHOLDER assert of the printing traversal: for each
printer the placeholder failure is impossible. -/
theorem claim_C1_no_placeholder_assert :
    (∀ fuel opts ast flags, GAst.phFreeB ast = true →
      c_ast_gibberish fuel opts ast flags ≠ Except.error PErr.placeholder) ∧
    (∀ fuel opts tdef flags, GAst.phFreeB (GTypedef.ast tdef) = true →
      c_typedef_gibberish fuel opts tdef flags ≠
        Except.error PErr.placeholder) ∧
    (∀ ast, EAst.phFreeB ast = true →
      c_ast_english ast ≠ Except.error EErr.placeholder) := by
  refine ⟨?_, ?_, ?_⟩
  · intro fuel opts ast flags h hcontra
    exact PErr.noConfusion
      (c_ast_gibberish_nph fuel opts ast flags h PErr.placeholder hcontra)
  · intro fuel opts tdef flags h hcontra
    exact PErr.noConfusion
      (c_typedef_gibberish_nph fuel opts tdef flags h PErr.placeholder
        hcontra)
  · intro ast h
    exact e_visit_nph ast h


/-- e_visit's unfolding with plain (non-dependent) matches, convenient for
rewriting. -/
theorem e_visit_eq (ast : EAst) :
    e_visit ast =
      match e_visitor ast with
      | .error e => .error e
      | .ok s =>
        match EAst.child ast with
        | some c =>
          match e_visit c with
          | .error e => .error e
          | .ok s2 => .ok (s ++ s2)
        | none => .ok s := by
  rw [e_visit.eq_def]
  split
  · rfl
  · split
    · rename_i c heqc
      rw [heqc]
    · rename_i heqc
      rw [heqc]

/-- The English of a bare K_NAME node (a K&R untyped parameter): just its
name. -/
theorem e_visit_name {a : EAst} (hk : EAst.kind a = EKind.name)
    (hc : EAst.child a = none) : e_visit a = .ok ((EAst.name a).getD "") := by
  have hv : e_visitor a = .ok ((EAst.name a).getD "") := by
    rw [e_visitor.eq_def, hk]
  rw [e_visit_eq, hv, hc]

/-- The argument loop emits exactly the spec-side argument renderings,
joined by ", " (with a leading ", " when the comma flag starts set and the
list is non-empty). -/
theorem e_args_loop_spec (args : List EAst) :
    ∀ comma : Bool,
      (∀ a ∈ args, (∃ s, e_visit a = Except.ok s) ∧
        (EAst.kind a = EKind.name → EAst.child a = none)) →
      e_args_loop comma args =
        Except.ok ((if comma && !args.isEmpty then ", " else "") ++
          strJoinSep ", " (args.map english_arg_spec)) := by
  induction args with
  | nil =>
    intro comma _
    simp [e_args_loop, strJoinSep]
  | cons a rest ih =>
    intro comma h
    obtain ⟨⟨s, hs⟩, hname⟩ := h a (List.mem_cons_self a rest)
    have hrest : ∀ x ∈ rest, (∃ s, e_visit x = Except.ok s) ∧
        (EAst.kind x = EKind.name → EAst.child x = none) :=
      fun x hx => h x (List.mem_cons_of_mem _ hx)
    simp only [e_args_loop]
    rw [hs, ih true hrest]
    by_cases hk : EAst.kind a = EKind.name
    · have hv := e_visit_name hk (hname hk)
      rw [hs] at hv
      injection hv with hv2
      cases rest with
      | nil => simp [english_arg_spec, hk, hv2, strJoinSep]
      | cons b bs =>
        simp [english_arg_spec, hk, hv2, strJoinSep, String.append_assoc]
    · have he : e_english a = s := by simp [e_english, hs]
      cases hf : e_find_name a with
      | some n =>
        cases rest with
        | nil =>
          simp [english_arg_spec, hk, hf, he, strJoinSep,
            String.append_assoc]
        | cons b bs =>
          simp [english_arg_spec, hk, hf, he, strJoinSep,
            String.append_assoc]
      | none =>
        cases rest with
        | nil => simp [english_arg_spec, hk, hf, he, strJoinSep]
        | cons b bs =>
          simp [english_arg_spec, hk, hf, he, strJoinSep,
            String.append_assoc]

/-- C7: the English printer's parameter list separates parameters with ", ";
a K_NAME (K&R untyped) parameter prints as just its name with no "as" part;
a typed parameter in which a name is found prints as "name as english"; a
typed unnamed parameter prints as just its English. -/
theorem claim_C7_english_argument_list :
    ∀ args : List EAst,
      (∀ a ∈ args, (∃ s, e_visit a = Except.ok s) ∧
        (EAst.kind a = EKind.name → EAst.child a = none)) →
      e_args_loop false args =
        Except.ok (strJoinSep ", " (args.map english_arg_spec)) := by
  intro args h
  rw [e_args_loop_spec args false h]
  simp

/-- A concrete run of C7: arguments `int x`, an unnamed `int`, and the K&R
name `y` print as "x as int, int, y". -/
theorem claim_C7_english_argument_list_witness :
    e_args_loop false
        [EAst.mk .builtin T_INT (some "x") none [] 0 0 "" "" "" .unspecified,
         EAst.mk .builtin T_INT none none [] 0 0 "" "" "" .unspecified,
         EAst.mk .name 0 (some "y") none [] 0 0 "" "" "" .unspecified] =
      Except.ok (strJoinSep ", "
        ([EAst.mk .builtin T_INT (some "x") none [] 0 0 "" "" "" .unspecified,
          EAst.mk .builtin T_INT none none [] 0 0 "" "" "" .unspecified,
          EAst.mk .name 0 (some "y") none [] 0 0 "" "" "" .unspecified].map
          english_arg_spec)) := by
  apply claim_C7_english_argument_list
  intro a ha
  have hbi : ∀ nm : Option String,
      e_visit (EAst.mk .builtin T_INT nm none [] 0 0 "" "" "" .unspecified) =
        Except.ok "int" := by
    intro nm
    have hv : e_visitor
        (EAst.mk .builtin T_INT nm none [] 0 0 "" "" "" .unspecified) =
          Except.ok "int" := by
      rw [e_visitor.eq_def]
      show Except.ok (c_type_name T_INT) = Except.ok "int"
      rw [show c_type_name T_INT = "int" from by decide]
    rw [e_visit_eq, hv]
    rfl
  have hnm : e_visit
      (EAst.mk .name 0 (some "y") none [] 0 0 "" "" "" .unspecified) =
        Except.ok "y" := by
    have := e_visit_name (a := EAst.mk .name 0 (some "y") none [] 0 0 "" ""
      "" .unspecified) rfl rfl
    simpa using this
  simp only [List.mem_cons, List.not_mem_nil, or_false] at ha
  rcases ha with ha | ha | ha <;> subst ha
  · exact ⟨⟨"int", hbi _⟩, by intro hcontra; cases hcontra⟩
  · exact ⟨⟨"int", hbi _⟩, by intro hcontra; cases hcontra⟩
  · exact ⟨⟨"y", hnm⟩, fun _ => rfl⟩


/-! String toolbox for claim C6. -/

theorem cleanS_append (a b : String) :
    cleanS (a ++ b) = (cleanS a && cleanS b) := by
  simp [cleanS, String.data_append, List.all_append]

theorem countNL_append (a b : String) :
    countNL (a ++ b) = countNL a + countNL b := by
  simp [countNL, String.data_append, List.count_append]

theorem countNL_of_clean {s : String} (h : cleanS s = true) : countNL s = 0 := by
  simp only [cleanS, List.all_eq_true] at h
  simp only [countNL]
  rw [List.count_eq_zero]
  intro hmem
  have h2 := h _ hmem
  simp [cleanChar] at h2

theorem lastChar_append_nl (p : String) : lastChar (p ++ "\n") = some '\n' := by
  have : ("\n" : String).data = ['\n'] := rfl
  simp [lastChar, String.data_append, this, List.getLast?_concat]

theorem noSemi_getLast {s : String} (h : cleanS s = true) :
    s.data.getLast? ≠ some ';' := by
  intro hcontra
  have hmem : ';' ∈ s.data := List.mem_of_mem_getLast? hcontra
  simp only [cleanS, List.all_eq_true] at h
  have h2 := h _ hmem
  simp [cleanChar] at h2

theorem endsSemiNL_append_nl (p : String) :
    endsSemiNL (p ++ "\n") = (p.data.getLast? == some ';') := by
  rw [show p.data.getLast? = p.data.reverse.head? from
    (List.head?_reverse p.data).symm]
  have hnl : ("\n" : String).data = ['\n'] := rfl
  simp only [endsSemiNL, String.data_append, hnl, List.reverse_append,
    List.reverse_cons, List.reverse_nil, List.nil_append,
    List.singleton_append]
  cases p.data.reverse with
  | nil => rfl
  | cons c cs =>
    split
    · rename_i x heq
      injection heq with h1 h2
      injection h2 with h3 h4
      subst h3
      simp
    · rename_i hne
      have hc : ¬(c = ';') := by
        intro hcc
        subst hcc
        exact hne cs rfl
      simp [hc]

theorem cleanS_strJoinSep (sep : String) (l : List String)
    (hsep : cleanS sep = true) (hl : ∀ x ∈ l, cleanS x = true) :
    cleanS (strJoinSep sep l) = true := by
  induction l with
  | nil => rfl
  | cons x xs ih =>
    cases xs with
    | nil => exact hl x (List.mem_cons_self x [])
    | cons y ys =>
      simp only [strJoinSep, cleanS_append, Bool.and_eq_true]
      refine ⟨⟨hl x (List.mem_cons_self x _), hsep⟩, ?_⟩
      exact ih (fun z hz => hl z (List.mem_cons_of_mem _ hz))

theorem cleanS_strConcat (l : List String)
    (hl : ∀ x ∈ l, cleanS x = true) : cleanS (strConcat l) = true := by
  induction l with
  | nil => rfl
  | cons x xs ih =>
    simp only [strConcat, cleanS_append, Bool.and_eq_true]
    exact ⟨hl x (List.mem_cons_self x _),
      ih (fun z hz => hl z (List.mem_cons_of_mem _ hz))⟩

theorem cleanS_tidWords : ∀ p ∈ tidWords, cleanS p.2 = true := by
  decide

theorem cleanS_c_tid_name_c (tid : Nat) : cleanS (c_tid_name_c tid) = true := by
  refine cleanS_strJoinSep _ _ (by decide) ?_
  intro x hx
  simp only [c_tid_name_parts, List.mem_map] at hx
  obtain ⟨p, hp, hpx⟩ := hx
  have hpm := List.mem_of_mem_filter hp
  rw [← hpx]
  exact cleanS_tidWords p hpm

theorem cleanS_c_type_name_c (t : CType) : cleanS (c_type_name_c t) = true :=
  cleanS_c_tid_name_c _

theorem cleanS_c_type_name_ecsu (t : CType) :
    cleanS (c_type_name_ecsu t) = true :=
  cleanS_c_tid_name_c _

/-! Clean strings out of a clean scoped name. -/

theorem cleanSN_names {s : SName} (h : cleanSN s = true) :
    ∀ p ∈ s, cleanS p.name = true := by
  intro p hp
  simp only [cleanSN, List.all_eq_true] at h
  exact h p.name (List.mem_map.mpr ⟨p, hp, rfl⟩)

theorem cleanS_full_name {s : SName} (h : cleanSN s = true) :
    cleanS (c_sname_full_name s) = true := by
  refine cleanS_strJoinSep _ _ (by decide) ?_
  intro x hx
  simp only [List.mem_map] at hx
  obtain ⟨p, hp, hpx⟩ := hx
  rw [← hpx]
  exact cleanSN_names h p hp

theorem cleanS_local_name {s : SName} (h : cleanSN s = true) :
    cleanS (c_sname_local_name s) = true := by
  simp only [c_sname_local_name]
  cases hl : s.getLast? with
  | none => rfl
  | some p =>
    have hp : p ∈ s := List.mem_of_mem_getLast? hl
    exact cleanSN_names h p hp

theorem cleanS_scope_name {s : SName} (h : cleanSN s = true) :
    cleanS (c_sname_scope_name s) = true := by
  refine cleanS_strJoinSep _ _ (by decide) ?_
  intro x hx
  simp only [List.mem_map] at hx
  obtain ⟨p, hp, hpx⟩ := hx
  rw [← hpx]
  exact cleanSN_names h p (List.dropLast_subset s hp)

/-! Graph-token outputs are clean whenever the token is. -/

theorem digraphSubst_clean {c0 : Char} {c1 : Option Char} {s : String}
    (h : digraphSubst c0 c1 = some s) : cleanS s = true := by
  unfold digraphSubst at h
  repeat' split at h
  all_goals try cases h
  all_goals decide

theorem trigraphSubst_clean {c0 : Char} {c1 : Option Char} {s : String}
    (h : trigraphSubst c0 c1 = some s) : cleanS s = true := by
  unfold trigraphSubst at h
  repeat' split at h
  all_goals try cases h
  all_goals decide

theorem cleanS_graph_token_c (alt : Bool) (gr : CGraph) (lang : Nat)
    {tok : String} (htok : cleanS tok = true) :
    cleanS (graph_token_c alt gr lang tok) = true := by
  unfold graph_token_c
  split
  · exact htok
  · split
    · exact htok
    · split
      · split
        · exact htok
        · split
          · rename_i heq
            exact digraphSubst_clean heq
          · exact htok
      · exact htok
    · split
      · split
        · exact htok
        · split
          · rename_i heq
            exact trigraphSubst_clean heq
          · exact htok
      · exact htok

/-! The function tail prints only clean text. -/

theorem cleanL_append {a b : List String} (ha : ∀ x ∈ a, cleanS x = true)
    (hb : ∀ x ∈ b, cleanS x = true) : ∀ x ∈ a ++ b, cleanS x = true := by
  intro x hx
  rcases List.mem_append.mp hx with h | h
  · exact ha x h
  · exact hb x h

theorem cleanS_fn_tail (f : FnTailFlags) :
    cleanS (strConcat (g_fn_tail_parts f)) = true := by
  refine cleanS_strConcat _ ?_
  unfold g_fn_tail_parts
  refine cleanL_append (cleanL_append (cleanL_append
    (cleanL_append ?_ ?_) ?_) ?_) ?_
  · intro x hx
    split at hx
    · simp only [List.mem_singleton] at hx
      subst hx
      simp only [cleanS_append, Bool.and_eq_true]
      exact ⟨by decide, cleanS_c_tid_name_c _⟩
    · cases hx
  · intro x hx
    split at hx
    · simp only [List.mem_singleton] at hx
      subst hx
      split <;> decide
    · cases hx
  · intro x hx
    unfold g_fn_tail_exception_part at hx
    split at hx
    · simp only [List.mem_singleton] at hx
      subst hx
      decide
    · split at hx
      · simp only [List.mem_singleton] at hx
        subst hx
        decide
      · cases hx
  · intro x hx
    unfold g_fn_tail_vf_part at hx
    split at hx
    · simp only [List.mem_singleton] at hx
      subst hx
      decide
    · split at hx
      · simp only [List.mem_singleton] at hx
        subst hx
        decide
      · split at hx
        · simp only [List.mem_singleton] at hx
          subst hx
          decide
        · cases hx
  · intro x hx
    split at hx
    · simp only [List.mem_singleton] at hx
      subst hx
      decide
    · split at hx
      · simp only [List.mem_singleton] at hx
        subst hx
        decide
      · cases hx

/-- The cleanB of a node in terms of its fields. -/
theorem cleanB_mk (k : GKind) (t : CType) (sn : SName) (c : Option GAst)
    (p : List GAst) (e cs : SName) (asz : Int) (ars bw : Nat) (o : String)
    (ak : AlignKind) (ae : Nat) (aa : Option GAst) :
    GAst.cleanB (.mk k t sn c p e cs asz ars bw o ak ae aa) =
      (cleanSN sn && cleanSN e && cleanSN cs && cleanS o &&
       cleanS (toString asz) && cleanS (toString bw) &&
       cleanS (toString ae) && gCleanOpt c && gCleanList p &&
       gCleanOpt aa) := by
  rfl

/-- The components of a clean node, through the accessors. -/
theorem cleanB_parts {ast : GAst} (h : GAst.cleanB ast = true) :
    cleanSN (GAst.sname ast) = true ∧ cleanSN (GAst.ecsuSname ast) = true ∧
    cleanSN (GAst.classSname ast) = true ∧
    cleanS (GAst.operToken ast) = true ∧
    cleanS (toString (GAst.arraySize ast)) = true ∧
    cleanS (toString (GAst.bitWidth ast)) = true ∧
    cleanS (toString (GAst.alignExpr ast)) = true ∧
    gCleanOpt (GAst.child ast) = true ∧
    gCleanList (GAst.params ast) = true ∧
    gCleanOpt (GAst.alignAst ast) = true := by
  obtain ⟨k, t, sn, c, p, e, cs, asz, ars, bw, o, ak, ae, aa⟩ := ast
  rw [cleanB_mk] at h
  simp only [Bool.and_eq_true] at h
  obtain ⟨⟨⟨⟨⟨⟨⟨⟨⟨h1, h2⟩, h3⟩, h4⟩, h5⟩, h6⟩, h7⟩, h8⟩, h9⟩, h10⟩ := h
  exact ⟨h1, h2, h3, h4, h5, h6, h7, h8, h9, h10⟩

/-- The scoped name c_ast_find_name_down finds in a clean AST is clean. -/
theorem cleanSN_find_name_down (ast : GAst) (sn : SName)
    (hc : GAst.cleanB ast = true)
    (h : c_ast_find_name_down ast = some sn) : cleanSN sn = true := by
  obtain ⟨k, t, s, c, p, e, cs, a, ars, b, o, ak, ae, aa⟩ := ast
  rw [cleanB_mk] at hc
  simp only [Bool.and_eq_true] at hc
  unfold c_ast_find_name_down at h
  split at h
  · injection h with h1
    subst h1
    exact hc.1.1.1.1.1.1.1.1.1
  · cases hcc : c with
    | some inner =>
      rw [hcc] at h
      refine cleanSN_find_name_down inner sn ?_ h
      have h8 := hc.1.1.2
      rw [hcc] at h8
      exact h8
    | none =>
      rw [hcc] at h
      cases h

/-! EmitsClean combinators. -/

theorem cleanS_append2 {a b : String} (ha : cleanS a = true)
    (hb : cleanS b = true) : cleanS (a ++ b) = true := by
  rw [cleanS_append, ha, hb]
  rfl

theorem ecl_gpure : EmitsClean gpure := by
  intro g g2 s h
  simp only [gpure, Except.ok.injEq, Prod.mk.injEq] at h
  rw [← h.2]
  rfl

theorem ecl_gemit {s : String} (hs : cleanS s = true) :
    EmitsClean (gemit s) := by
  intro g g2 s2 h
  simp only [gemit, Except.ok.injEq, Prod.mk.injEq] at h
  rw [← h.2]
  exact hs

theorem ecl_gmodify (f : GState → GState) : EmitsClean (gmodify f) := by
  intro g g2 s h
  simp only [gmodify, Except.ok.injEq, Prod.mk.injEq] at h
  rw [← h.2]
  rfl

theorem ecl_gfail (e : PErr) : EmitsClean (gfail e) := by
  intro g g2 s h
  simp [gfail] at h

theorem ecl_gseq {a b : GM} (ha : EmitsClean a) (hb : EmitsClean b) :
    EmitsClean (gseq a b) := by
  intro g g2 s h
  unfold gseq at h
  cases hag : a g with
  | error e =>
    rw [hag] at h
    cases h
  | ok p =>
    obtain ⟨g1, s1⟩ := p
    cases hbg : b g1 with
    | error e =>
      simp only [hag, hbg] at h
      cases h
    | ok q =>
      obtain ⟨g3, s2⟩ := q
      simp only [hag, hbg, Except.ok.injEq, Prod.mk.injEq] at h
      rw [← h.2]
      exact cleanS_append2 (ha g g1 s1 hag) (hb g1 g3 s2 hbg)

theorem ecl_gseqs_nil : EmitsClean (gseqs []) := ecl_gpure

theorem ecl_gseqs_cons {m : GM} {ms : List GM} (hm : EmitsClean m)
    (hms : EmitsClean (gseqs ms)) : EmitsClean (gseqs (m :: ms)) :=
  ecl_gseq hm hms

theorem ecl_gwhen {c : Bool} {m : GM} (hm : EmitsClean m) :
    EmitsClean (gwhen c m) := by
  unfold gwhen
  cases c
  · exact ecl_gpure
  · exact hm

theorem ecl_gget {k : GState → GM} (h : ∀ g, EmitsClean (k g)) :
    EmitsClean (gget k) := by
  intro g g2 s hh
  exact h g g g2 s hh

theorem ecl_gparam {m : GM} (hm : EmitsClean m) : EmitsClean (gparam m) := by
  intro g g2 s h
  unfold gparam at h
  cases hmg : m (g_init { g.flags with omitType := false } false) with
  | error e =>
    rw [hmg] at h
    cases h
  | ok p =>
    obtain ⟨g1, s1⟩ := p
    rw [hmg] at h
    simp only [Except.ok.injEq, Prod.mk.injEq] at h
    rw [← h.2]
    exact hm _ g1 s1 hmg

/-! The helper printers emit only clean text. -/

theorem ecl_g_print_space_once : EmitsClean g_print_space_once := by
  apply ecl_gget
  intro g
  apply ecl_gwhen
  exact ecl_gseq (ecl_gmodify _) (ecl_gemit (by decide))

theorem ecl_g_print_ast_name (ast : GAst)
    (hsn : cleanSN (GAst.sname ast) = true) :
    EmitsClean (g_print_ast_name ast) := by
  apply ecl_gget
  intro g
  split
  · exact ecl_gmodify _
  · apply ecl_gemit
    split
    · exact cleanS_local_name hsn
    · exact cleanS_full_name hsn

theorem ecl_g_print_ast_bit_width (ast : GAst)
    (hbw : cleanS (toString (GAst.bitWidth ast)) = true) :
    EmitsClean (g_print_ast_bit_width ast) :=
  ecl_gwhen (ecl_gemit (cleanS_append2 (by decide) hbw))

theorem ecl_g_print_ast_array_size (opts : GOpts) (ast : GAst)
    (hasz : cleanS (toString (GAst.arraySize ast)) = true) :
    EmitsClean (g_print_ast_array_size opts ast) := by
  unfold g_print_ast_array_size
  apply ecl_gseqs_cons (ecl_gemit (cleanS_graph_token_c _ _ _ (by decide)))
  apply ecl_gseqs_cons
    (ecl_gwhen (ecl_gemit (cleanS_append2 (cleanS_c_tid_name_c _)
      (by decide))))
  apply ecl_gseqs_cons
  · split
    · exact ecl_gpure
    · split
      · exact ecl_gemit (by decide)
      · exact ecl_gemit hasz
  · exact ecl_gseqs_cons
      (ecl_gemit (cleanS_graph_token_c _ _ _ (by decide))) ecl_gseqs_nil

theorem ecl_g_print_qual_name (opts : GOpts) (anc : List GAst) (ast : GAst)
    (hsn : cleanSN (GAst.sname ast) = true)
    (hcs : cleanSN (GAst.classSname ast) = true) :
    EmitsClean (g_print_qual_name opts anc ast) := by
  unfold g_print_qual_name
  apply ecl_gseqs_cons
  · split
    · exact ecl_gseq (ecl_gget (fun g => ecl_gwhen ecl_g_print_space_once))
        (ecl_gemit (by decide))
    · exact ecl_gemit (cleanS_append2 (cleanS_full_name hcs) (by decide))
    · split
      · exact ecl_gseq ecl_g_print_space_once (ecl_gemit (by decide))
      · exact ecl_gemit (by decide)
    · split
      · exact ecl_gseq ecl_g_print_space_once (ecl_gemit (by decide))
      · exact ecl_gemit (by decide)
    · exact ecl_gpure
  apply ecl_gseqs_cons
  · apply ecl_gwhen
    apply ecl_gseq (ecl_gemit (cleanS_c_tid_name_c _))
    apply ecl_gget
    intro g
    exact ecl_gwhen (ecl_gemit (by decide))
  exact ecl_gseqs_cons (ecl_g_print_ast_name ast hsn) ecl_gseqs_nil

theorem ecl_g_print_space_ast_name (opts : GOpts) (ast : GAst)
    (hsn : cleanSN (GAst.sname ast) = true)
    (hop : cleanS (GAst.operToken ast) = true) :
    EmitsClean (g_print_space_ast_name opts ast) := by
  unfold g_print_space_ast_name
  apply ecl_gget
  intro g
  split
  · exact ecl_gpure
  · split
    · exact ecl_gemit (cleanS_full_name hsn)
    · apply ecl_gseqs_cons
        (ecl_gwhen (ecl_gemit (cleanS_append2 (cleanS_scope_name hsn)
          (by decide))))
      apply ecl_gseqs_cons
      · split
        · exact ecl_gemit (by decide)
        · exact ecl_gemit (by decide)
      exact ecl_gseqs_cons (ecl_gemit (cleanS_local_name hsn)) ecl_gseqs_nil
    · apply ecl_gseqs_cons ecl_g_print_space_once
      apply ecl_gseqs_cons
        (ecl_gwhen (ecl_gemit (cleanS_append2 (cleanS_full_name hsn)
          (by decide))))
      refine ecl_gseqs_cons (ecl_gemit ?_) ecl_gseqs_nil
      refine cleanS_append2 (cleanS_append2 (by decide) ?_) hop
      split
      · decide
      · decide
    · exact ecl_gpure
    · apply ecl_gseqs_cons ecl_g_print_space_once
      apply ecl_gseqs_cons
        (ecl_gwhen (ecl_gemit (cleanS_append2 (cleanS_scope_name hsn)
          (by decide))))
      refine ecl_gseqs_cons
        (ecl_gemit (cleanS_append2 (by decide) (cleanS_local_name hsn)))
        ecl_gseqs_nil
    · apply ecl_gwhen
      apply ecl_gseq
      · apply ecl_gget
        intro g2
        exact ecl_gwhen ecl_g_print_space_once
      · exact ecl_g_print_ast_name ast hsn

/-- The space-or-nothing separator is clean whatever the condition. -/
theorem cleanS_ite_sp (c : Prop) [Decidable c] :
    cleanS (if c then " " else "") = true := by
  split
  · decide
  · decide

set_option maxHeartbeats 1600000 in
/-- The master cleanliness lemma for claim C6: a clean AST (clean names,
tokens and number renderings, recursively) makes every one of the printer's
mutual functions emit only clean text — no semicolon and no newline. -/
theorem gib_printer_clean (fuel : Nat) (opts : GOpts) :
    (∀ anc ast, GAst.cleanB ast = true → ancClean anc = true →
      EmitsClean (g_print_ast fuel opts anc ast)) ∧
    (∀ anc ast, GAst.cleanB ast = true → ancClean anc = true →
      EmitsClean (g_print_pfix fuel opts anc ast)) ∧
    (∀ comma ps, gCleanList ps = true →
      EmitsClean (g_print_ast_list fuel opts comma ps)) := by
  induction fuel with
  | zero =>
    refine ⟨?_, ?_, ?_⟩
    · intro anc ast _ _
      exact ecl_gfail _
    · intro anc ast _ _
      exact ecl_gfail _
    · intro comma ps _
      exact ecl_gfail _
  | succ fuel ih =>
    obtain ⟨ih1, ih2, ih3⟩ := ih
    refine ⟨?_, ?_, ?_⟩
    · -- g_print_ast
      intro anc ast hast hanc
      obtain ⟨k, type, sn, child, params, ecsn, csn, asz, ars, bw, tok, ak,
        ae, aa⟩ := ast
      have hR2 := ih2 anc _ hast hanc
      have hanc2 : ancClean
          (GAst.mk k type sn child params ecsn csn asz ars bw tok ak ae aa ::
            anc) = true := by
        simp only [ancClean, List.all_cons, Bool.and_eq_true]
        exact ⟨hast, hanc⟩
      obtain ⟨hsn, hecsu, hcs, hop, hasz, hbw, hae, hch, hpar, haa⟩ :=
        cleanB_parts hast
      have hCc : ∀ c, child = some c → GAst.cleanB c = true := by
        intro c hc
        simp only [GAst.child] at hch
        rw [hc] at hch
        exact hch
      have hRc : ∀ c, child = some c →
          EmitsClean (g_print_ast fuel opts
            (GAst.mk k type sn child params ecsn csn asz ars bw tok ak ae aa
              :: anc) c) :=
        fun c hc => ih1 _ c (hCc c hc) hanc2
      cases k
      all_goals simp only [g_print_ast, GAst.kind]
      case placeholder => exact ecl_gfail _
      case builtin =>
        refine ecl_gseqs_cons ?_ (ecl_gseqs_cons
          (ecl_g_print_space_ast_name _ _ hsn hop)
          (ecl_gseqs_cons (ecl_g_print_ast_bit_width _ hbw) ecl_gseqs_nil))
        apply ecl_gget
        intro g
        exact ecl_gwhen (ecl_gemit (cleanS_c_type_name_c _))
      case ecsu =>
        apply ecl_gget
        intro g
        refine ecl_gseqs_cons (ecl_gemit ?_)
          (ecl_gseqs_cons (ecl_gwhen (ecl_gemit (cleanS_append2 ?_
            (cleanS_full_name hecsu))))
          (ecl_gseqs_cons ?_
          (ecl_gseqs_cons (ecl_gwhen (ecl_gemit (cleanS_append2 (by decide)
            (cleanS_c_tid_name_c _))))
          (ecl_gseqs_cons (ecl_g_print_space_ast_name _ _ hsn hop)
            ecl_gseqs_nil))))
        · split
          · exact cleanS_c_type_name_ecsu _
          · exact cleanS_c_type_name_c _
        · exact cleanS_ite_sp _
        · cases child with
          | none => exact ecl_gpure
          | some c => exact ecl_gseq (ecl_gemit (by decide)) (hRc c rfl)
      case name =>
        refine ecl_gseqs_cons (ecl_gwhen (ecl_gemit (by decide)))
          (ecl_gseqs_cons ?_ ecl_gseqs_nil)
        apply ecl_gget
        intro g
        exact ecl_gwhen (ecl_gseq (ecl_gwhen (ecl_gemit (by decide)))
          (ecl_g_print_ast_name _ hsn))
      case tdef =>
        apply ecl_gget
        intro g
        refine ecl_gseqs_cons ?_ (ecl_gseqs_cons
          (ecl_g_print_space_ast_name _ _ hsn hop)
          (ecl_gseqs_cons (ecl_g_print_ast_bit_width _ hbw) ecl_gseqs_nil))
        apply ecl_gwhen
        refine ecl_gseqs_cons (ecl_gwhen (ecl_gemit (cleanS_c_type_name_c _)))
          (ecl_gseqs_cons ?_
          (ecl_gseqs_cons ?_
          (ecl_gseqs_cons (ecl_gwhen (ecl_gemit (by decide)))
          (ecl_gseqs_cons (ecl_gwhen (ecl_gemit (cleanS_append2 (by decide)
            (cleanS_c_type_name_c _)))) ecl_gseqs_nil))))
        · split
          · exact ecl_gemit (by decide)
          · exact ecl_gwhen (ecl_gemit (by decide))
        · apply ecl_gget
          intro g1
          refine ecl_gseqs_cons (ecl_gmodify _) (ecl_gseqs_cons ?_
            (ecl_gseqs_cons (ecl_gmodify _) ecl_gseqs_nil))
          cases child with
          | none => exact ecl_gpure
          | some c => exact ecl_g_print_ast_name c (cleanB_parts (hCc c rfl)).1
      case variadic => exact ecl_gemit (by decide)
      case ptr =>
        refine ecl_gseqs_cons ?_ (ecl_gseqs_cons ?_ (ecl_gseqs_cons ?_
          (ecl_gseqs_cons ?_ ecl_gseqs_nil)))
        · apply ecl_gget
          intro g
          exact ecl_gwhen (ecl_gwhen (ecl_gemit (cleanS_append2
            (cleanS_c_tid_name_c _) (by decide))))
        · cases child with
          | none => exact ecl_gpure
          | some c => exact hRc c rfl
        · apply ecl_gget
          intro g
          exact ecl_gwhen ecl_g_print_space_once
        · apply ecl_gget
          intro g
          exact ecl_gwhen (ecl_g_print_qual_name _ _ _ hsn hcs)
      case ref =>
        refine ecl_gseqs_cons ?_ (ecl_gseqs_cons ?_ (ecl_gseqs_cons ?_
          (ecl_gseqs_cons ?_ ecl_gseqs_nil)))
        · apply ecl_gget
          intro g
          exact ecl_gwhen (ecl_gwhen (ecl_gemit (cleanS_append2
            (cleanS_c_tid_name_c _) (by decide))))
        · cases child with
          | none => exact ecl_gpure
          | some c => exact hRc c rfl
        · apply ecl_gget
          intro g
          exact ecl_gwhen ecl_g_print_space_once
        · apply ecl_gget
          intro g
          exact ecl_gwhen (ecl_g_print_qual_name _ _ _ hsn hcs)
      case rref =>
        refine ecl_gseqs_cons ?_ (ecl_gseqs_cons ?_ (ecl_gseqs_cons ?_
          (ecl_gseqs_cons ?_ ecl_gseqs_nil)))
        · apply ecl_gget
          intro g
          exact ecl_gwhen (ecl_gwhen (ecl_gemit (cleanS_append2
            (cleanS_c_tid_name_c _) (by decide))))
        · cases child with
          | none => exact ecl_gpure
          | some c => exact hRc c rfl
        · apply ecl_gget
          intro g
          exact ecl_gwhen ecl_g_print_space_once
        · apply ecl_gget
          intro g
          exact ecl_gwhen (ecl_g_print_qual_name _ _ _ hsn hcs)
      case ptrMbr =>
        refine ecl_gseqs_cons ?_ (ecl_gseqs_cons ?_ ecl_gseqs_nil)
        · cases child with
          | none => exact ecl_gpure
          | some c => exact hRc c rfl
        · apply ecl_gget
          intro g
          exact ecl_gwhen (ecl_gseq (ecl_gemit (by decide))
            (ecl_g_print_qual_name _ _ _ hsn hcs))
      case ctor =>
        refine ecl_gseqs_cons (ecl_gwhen (ecl_gmodify _))
          (ecl_gseqs_cons (ecl_gwhen (ecl_gemit (cleanS_append2
            (cleanS_c_type_name_c _) (by decide))))
          (ecl_gseqs_cons (ecl_gwhen (ecl_gseq (ecl_gwhen (ecl_gemit
            (cleanS_append2 (cleanS_full_name hsn) (by decide))))
            (ecl_gemit (by decide))))
          (ecl_gseqs_cons ?_
          (ecl_gseqs_cons (ecl_gwhen (ecl_gemit (cleanS_append2 (by decide)
            (cleanS_c_tid_name_c _))))
          (ecl_gseqs_cons ?_
          (ecl_gseqs_cons (ecl_gemit (cleanS_fn_tail _)) ecl_gseqs_nil))))))
        · cases child with
          | none => exact ecl_gpure
          | some c => exact hRc c rfl
        · apply ecl_gget
          intro g
          split
          · refine ecl_gseqs_cons (ecl_gmodify _) (ecl_gseqs_cons ?_
              (ecl_gseqs_cons hR2 ecl_gseqs_nil))
            apply ecl_gget
            intro g1
            exact ecl_gwhen ecl_g_print_space_once
          · exact ecl_gpure
      case dtor =>
        refine ecl_gseqs_cons (ecl_gwhen (ecl_gmodify _))
          (ecl_gseqs_cons (ecl_gwhen (ecl_gemit (cleanS_append2
            (cleanS_c_type_name_c _) (by decide))))
          (ecl_gseqs_cons (ecl_gwhen (ecl_gseq (ecl_gwhen (ecl_gemit
            (cleanS_append2 (cleanS_full_name hsn) (by decide))))
            (ecl_gemit (by decide))))
          (ecl_gseqs_cons ?_
          (ecl_gseqs_cons (ecl_gwhen (ecl_gemit (cleanS_append2 (by decide)
            (cleanS_c_tid_name_c _))))
          (ecl_gseqs_cons ?_
          (ecl_gseqs_cons (ecl_gemit (cleanS_fn_tail _)) ecl_gseqs_nil))))))
        · cases child with
          | none => exact ecl_gpure
          | some c => exact hRc c rfl
        · apply ecl_gget
          intro g
          split
          · refine ecl_gseqs_cons (ecl_gmodify _) (ecl_gseqs_cons ?_
              (ecl_gseqs_cons hR2 ecl_gseqs_nil))
            apply ecl_gget
            intro g1
            exact ecl_gwhen ecl_g_print_space_once
          · exact ecl_gpure
      case udefConv =>
        refine ecl_gseqs_cons (ecl_gwhen (ecl_gmodify _))
          (ecl_gseqs_cons (ecl_gwhen (ecl_gemit (cleanS_append2
            (cleanS_c_type_name_c _) (by decide))))
          (ecl_gseqs_cons (ecl_gwhen (ecl_gseq (ecl_gwhen (ecl_gemit
            (cleanS_append2 (cleanS_full_name hsn) (by decide))))
            (ecl_gemit (by decide))))
          (ecl_gseqs_cons ?_
          (ecl_gseqs_cons (ecl_gwhen (ecl_gemit (cleanS_append2 (by decide)
            (cleanS_c_tid_name_c _))))
          (ecl_gseqs_cons ?_
          (ecl_gseqs_cons (ecl_gemit (cleanS_fn_tail _)) ecl_gseqs_nil))))))
        · cases child with
          | none => exact ecl_gpure
          | some c => exact hRc c rfl
        · apply ecl_gget
          intro g
          split
          · refine ecl_gseqs_cons (ecl_gmodify _) (ecl_gseqs_cons ?_
              (ecl_gseqs_cons hR2 ecl_gseqs_nil))
            apply ecl_gget
            intro g1
            exact ecl_gwhen ecl_g_print_space_once
          · exact ecl_gpure
      case func =>
        refine ecl_gseqs_cons (ecl_gwhen (ecl_gmodify _))
          (ecl_gseqs_cons (ecl_gwhen (ecl_gemit (cleanS_append2
            (cleanS_c_type_name_c _) (by decide))))
          (ecl_gseqs_cons (ecl_gwhen (ecl_gseq (ecl_gwhen (ecl_gemit
            (cleanS_append2 (cleanS_full_name hsn) (by decide))))
            (ecl_gemit (by decide))))
          (ecl_gseqs_cons ?_
          (ecl_gseqs_cons (ecl_gwhen (ecl_gemit (cleanS_append2 (by decide)
            (cleanS_c_tid_name_c _))))
          (ecl_gseqs_cons ?_
          (ecl_gseqs_cons (ecl_gemit (cleanS_fn_tail _)) ecl_gseqs_nil))))))
        · cases child with
          | none => exact ecl_gpure
          | some c => exact hRc c rfl
        · apply ecl_gget
          intro g
          split
          · refine ecl_gseqs_cons (ecl_gmodify _) (ecl_gseqs_cons ?_
              (ecl_gseqs_cons hR2 ecl_gseqs_nil))
            apply ecl_gget
            intro g1
            exact ecl_gwhen ecl_g_print_space_once
          · exact ecl_gpure
      case oper =>
        refine ecl_gseqs_cons (ecl_gwhen (ecl_gmodify _))
          (ecl_gseqs_cons (ecl_gwhen (ecl_gemit (cleanS_append2
            (cleanS_c_type_name_c _) (by decide))))
          (ecl_gseqs_cons (ecl_gwhen (ecl_gseq (ecl_gwhen (ecl_gemit
            (cleanS_append2 (cleanS_full_name hsn) (by decide))))
            (ecl_gemit (by decide))))
          (ecl_gseqs_cons ?_
          (ecl_gseqs_cons (ecl_gwhen (ecl_gemit (cleanS_append2 (by decide)
            (cleanS_c_tid_name_c _))))
          (ecl_gseqs_cons ?_
          (ecl_gseqs_cons (ecl_gemit (cleanS_fn_tail _)) ecl_gseqs_nil))))))
        · cases child with
          | none => exact ecl_gpure
          | some c => exact hRc c rfl
        · apply ecl_gget
          intro g
          split
          · refine ecl_gseqs_cons (ecl_gmodify _) (ecl_gseqs_cons ?_
              (ecl_gseqs_cons hR2 ecl_gseqs_nil))
            apply ecl_gget
            intro g1
            exact ecl_gwhen ecl_g_print_space_once
          · exact ecl_gpure
      case udefLit =>
        refine ecl_gseqs_cons (ecl_gwhen (ecl_gmodify _))
          (ecl_gseqs_cons (ecl_gwhen (ecl_gemit (cleanS_append2
            (cleanS_c_type_name_c _) (by decide))))
          (ecl_gseqs_cons (ecl_gwhen (ecl_gseq (ecl_gwhen (ecl_gemit
            (cleanS_append2 (cleanS_full_name hsn) (by decide))))
            (ecl_gemit (by decide))))
          (ecl_gseqs_cons ?_
          (ecl_gseqs_cons (ecl_gwhen (ecl_gemit (cleanS_append2 (by decide)
            (cleanS_c_tid_name_c _))))
          (ecl_gseqs_cons ?_
          (ecl_gseqs_cons (ecl_gemit (cleanS_fn_tail _)) ecl_gseqs_nil))))))
        · cases child with
          | none => exact ecl_gpure
          | some c => exact hRc c rfl
        · apply ecl_gget
          intro g
          split
          · refine ecl_gseqs_cons (ecl_gmodify _) (ecl_gseqs_cons ?_
              (ecl_gseqs_cons hR2 ecl_gseqs_nil))
            apply ecl_gget
            intro g1
            exact ecl_gwhen ecl_g_print_space_once
          · exact ecl_gpure
      case array =>
        refine ecl_gseqs_cons (ecl_gwhen (ecl_gmodify _))
          (ecl_gseqs_cons (ecl_gwhen (ecl_gemit (cleanS_append2
            (cleanS_c_type_name_c _) (by decide))))
          (ecl_gseqs_cons (ecl_gwhen (ecl_gseq (ecl_gwhen (ecl_gemit
            (cleanS_append2 (cleanS_full_name hsn) (by decide))))
            (ecl_gemit (by decide))))
          (ecl_gseqs_cons ?_
          (ecl_gseqs_cons (ecl_gwhen (ecl_gemit (cleanS_append2 (by decide)
            (cleanS_c_tid_name_c _))))
          (ecl_gseqs_cons ?_
          (ecl_gseqs_cons (ecl_gemit (cleanS_fn_tail _)) ecl_gseqs_nil))))))
        · cases child with
          | none => exact ecl_gpure
          | some c => exact hRc c rfl
        · apply ecl_gget
          intro g
          split
          · refine ecl_gseqs_cons (ecl_gmodify _) (ecl_gseqs_cons ?_
              (ecl_gseqs_cons hR2 ecl_gseqs_nil))
            apply ecl_gget
            intro g1
            exact ecl_gwhen ecl_g_print_space_once
          · exact ecl_gpure
      case block =>
        refine ecl_gseqs_cons (ecl_gwhen (ecl_gmodify _))
          (ecl_gseqs_cons (ecl_gwhen (ecl_gemit (cleanS_append2
            (cleanS_c_type_name_c _) (by decide))))
          (ecl_gseqs_cons (ecl_gwhen (ecl_gseq (ecl_gwhen (ecl_gemit
            (cleanS_append2 (cleanS_full_name hsn) (by decide))))
            (ecl_gemit (by decide))))
          (ecl_gseqs_cons ?_
          (ecl_gseqs_cons (ecl_gwhen (ecl_gemit (cleanS_append2 (by decide)
            (cleanS_c_tid_name_c _))))
          (ecl_gseqs_cons ?_
          (ecl_gseqs_cons (ecl_gemit (cleanS_fn_tail _)) ecl_gseqs_nil))))))
        · cases child with
          | none => exact ecl_gpure
          | some c => exact hRc c rfl
        · apply ecl_gget
          intro g
          split
          · refine ecl_gseqs_cons (ecl_gmodify _) (ecl_gseqs_cons ?_
              (ecl_gseqs_cons hR2 ecl_gseqs_nil))
            apply ecl_gget
            intro g1
            exact ecl_gwhen ecl_g_print_space_once
          · exact ecl_gpure
    · -- g_print_pfix
      intro anc ast hast hanc
      obtain ⟨k, type, sn, child, params, ecsn, csn, asz, ars, bw, tok, ak,
        ae, aa⟩ := ast
      obtain ⟨hsn, hecsu, hcs, hop, hasz, hbw, hae, hch, hpar, haa⟩ :=
        cleanB_parts hast
      have hRlist : EmitsClean (g_print_ast_list fuel opts false params) := by
        refine ih3 false params ?_
        simp only [GAst.params] at hpar
        exact hpar
      cases anc with
      | nil =>
        simp only [g_print_pfix, GAst.kind]
        refine ecl_gseq ?_ ?_
        · exact ecl_gseqs_cons (ecl_gwhen (ecl_gemit (by decide)))
            (ecl_gseqs_cons (ecl_g_print_space_ast_name _ _ hsn hop)
            (ecl_gseqs_cons (ecl_gwhen (ecl_gemit (by decide)))
              ecl_gseqs_nil))
        · cases k
          case array => exact ecl_g_print_ast_array_size _ _ hasz
          all_goals first
            | exact ecl_gseqs_cons (ecl_gemit (by decide))
                (ecl_gseqs_cons hRlist
                (ecl_gseqs_cons (ecl_gemit (by decide)) ecl_gseqs_nil))
            | exact ecl_gemit (by decide)
            | exact ecl_gfail _
      | cons parent rest =>
        simp only [ancClean, List.all_cons, Bool.and_eq_true] at hanc
        obtain ⟨hparB, hrest⟩ := hanc
        obtain ⟨pk, ptype, psn, pchild, pparams, pecsn, pcsn, pasz, pars2,
          pbw, ptok, pak, pae, paa⟩ := parent
        have hRparent : EmitsClean (g_print_pfix fuel opts rest
            (GAst.mk pk ptype psn pchild pparams pecsn pcsn pasz pars2 pbw
              ptok pak pae paa)) :=
          ih2 rest _ hparB hrest
        obtain ⟨hpsn, hpecsu, hpcs, hpop, hpasz, hpbw, hpae, hpch, hppar,
          hpaa⟩ := cleanB_parts hparB
        simp only [g_print_pfix, GAst.kind]
        refine ecl_gseq ?_ ?_
        · cases pk
          case ptr =>
            refine ecl_gseqs_cons ?_ (ecl_gseqs_cons
              (ecl_g_print_qual_name _ _ _ hpsn hpcs)
              (ecl_gseqs_cons (ecl_gwhen hRparent)
              (ecl_gseqs_cons (ecl_gwhen (ecl_gemit (by decide)))
                ecl_gseqs_nil)))
            split
            · exact ecl_gemit (by decide)
            · exact ecl_gpure
            · exact ecl_gseq (ecl_gemit (by decide)) (ecl_gwhen (ecl_gemit
                (cleanS_append2 (cleanS_c_tid_name_c _) (by decide))))
          case ptrMbr =>
            refine ecl_gseqs_cons ?_ (ecl_gseqs_cons
              (ecl_g_print_qual_name _ _ _ hpsn hpcs)
              (ecl_gseqs_cons (ecl_gwhen hRparent)
              (ecl_gseqs_cons (ecl_gwhen (ecl_gemit (by decide)))
                ecl_gseqs_nil)))
            split
            · exact ecl_gemit (by decide)
            · exact ecl_gpure
            · exact ecl_gseq (ecl_gemit (by decide)) (ecl_gwhen (ecl_gemit
                (cleanS_append2 (cleanS_c_tid_name_c _) (by decide))))
          case ref =>
            refine ecl_gseqs_cons ?_ (ecl_gseqs_cons
              (ecl_g_print_qual_name _ _ _ hpsn hpcs)
              (ecl_gseqs_cons (ecl_gwhen hRparent)
              (ecl_gseqs_cons (ecl_gwhen (ecl_gemit (by decide)))
                ecl_gseqs_nil)))
            split
            · exact ecl_gemit (by decide)
            · exact ecl_gpure
            · exact ecl_gseq (ecl_gemit (by decide)) (ecl_gwhen (ecl_gemit
                (cleanS_append2 (cleanS_c_tid_name_c _) (by decide))))
          case rref =>
            refine ecl_gseqs_cons ?_ (ecl_gseqs_cons
              (ecl_g_print_qual_name _ _ _ hpsn hpcs)
              (ecl_gseqs_cons (ecl_gwhen hRparent)
              (ecl_gseqs_cons (ecl_gwhen (ecl_gemit (by decide)))
                ecl_gseqs_nil)))
            split
            · exact ecl_gemit (by decide)
            · exact ecl_gpure
            · exact ecl_gseq (ecl_gemit (by decide)) (ecl_gwhen (ecl_gemit
                (cleanS_append2 (cleanS_c_tid_name_c _) (by decide))))
          all_goals first
            | exact hRparent
            | exact ecl_gpure
            | exact ecl_gfail _
        · cases k
          case array => exact ecl_g_print_ast_array_size _ _ hasz
          all_goals first
            | exact ecl_gseqs_cons (ecl_gemit (by decide))
                (ecl_gseqs_cons hRlist
                (ecl_gseqs_cons (ecl_gemit (by decide)) ecl_gseqs_nil))
            | exact ecl_gemit (by decide)
            | exact ecl_gfail _
    · -- g_print_ast_list
      intro comma ps hps
      cases ps with
      | nil => exact ecl_gpure
      | cons p rest =>
        simp only [gCleanList, Bool.and_eq_true] at hps
        exact ecl_gseqs_cons (ecl_gwhen (ecl_gemit (by decide)))
          (ecl_gseqs_cons (ecl_gparam (ih1 [] p hps.1 rfl))
          (ecl_gseqs_cons (ih3 true rest hps.2) ecl_gseqs_nil))

/-- A successful c_ast_gibberish_impl run of a clean AST outputs clean
text. -/
theorem c_ast_gibberish_impl_clean (fuel : Nat) (opts : GOpts) (ast : GAst)
    (flags : GFlags) (pt : Bool) (hast : GAst.cleanB ast = true) :
    ∀ s, c_ast_gibberish_impl fuel opts ast flags pt = .ok s →
      cleanS s = true := by
  intro s h
  have hm := (gib_printer_clean fuel opts).1 [] ast hast rfl
  simp only [c_ast_gibberish_impl] at h
  split at h
  · cases h
  · rename_i g2 s2 heq
    injection h with h2
    subst h2
    exact hm _ g2 s2 heq

/-- Each nested-scope chunk of the C++14-and-earlier path is clean. -/
theorem scopes_concat_clean {sname : SName} (hsn : cleanSN sname = true) :
    cleanS (strConcat (sname.dropLast.map (fun sc =>
      let t := sc.type
      let t2 := if t.btids == TB_SCOPE then { t with btids := TB_NAMESPACE }
                else t
      c_type_name_c t2 ++ " " ++ sc.name ++ " \x7b "))) = true := by
  refine cleanS_strConcat _ ?_
  intro x hx
  simp only [List.mem_map] at hx
  obtain ⟨sc, hsc, hscx⟩ := hx
  rw [← hscx]
  refine cleanS_append2 (cleanS_append2 (cleanS_append2
    (cleanS_c_type_name_c _) (by decide)) ?_) (by decide)
  exact cleanSN_names hsn sc (List.dropLast_subset sname hsc)

/-- The scope prefix c_typedef_gibberish prints is clean when the typedef's
AST is clean. -/
theorem c_typedef_scope_info_clean (opts : GOpts) (tdef : GTypedef)
    (hast : GAst.cleanB (GTypedef.ast tdef) = true) :
    cleanS (c_typedef_scope_info opts tdef).1 = true := by
  unfold c_typedef_scope_info
  split
  · rfl
  · rename_i sname hfound
    have hsn : cleanSN sname = true :=
      cleanSN_find_name_down _ _ hast hfound
    repeat' first
      | split
      | dsimp only
    all_goals first
      | rfl
      | exact cleanS_append2 (cleanS_append2 (cleanS_append2
          (cleanS_c_type_name_c _) (by decide)) (cleanS_scope_name hsn))
          (by decide)
      | exact scopes_concat_clean hsn

/-- The closing-brace run contains no newline. -/
theorem braces_noNL (n : Nat) :
    countNL (strConcat (List.replicate n " \x7d")) = 0 := by
  induction n with
  | zero => rfl
  | succ n ih =>
    rw [List.replicate_succ]
    show countNL (" \x7d" ++ strConcat (List.replicate n " \x7d")) = 0
    rw [countNL_append, ih]
    rfl

/-- The closing-brace run ends in a closing brace. -/
theorem braces_last (n : Nat) (h : 0 < n) :
    (strConcat (List.replicate n " \x7d")).data.getLast? =
      some (Char.ofNat 125) := by
  induction n with
  | zero => cases h
  | succ n ih =>
    rw [List.replicate_succ]
    rw [show strConcat (" \x7d" :: List.replicate n " \x7d") =
      " \x7d" ++ strConcat (List.replicate n " \x7d") from rfl]
    rw [String.data_append]
    cases n with
    | zero => rfl
    | succ m =>
      rw [List.getLast?_append_of_ne_nil]
      · exact ih (Nat.succ_pos m)
      · intro hcontra
        have h2 := ih (Nat.succ_pos m)
        rw [hcontra] at h2
        cases h2

/-- The typedef/using head line is clean. -/
theorem head_clean (b1 b2 : Bool) {nm : String} (hnm : cleanS nm = true) :
    cleanS (if b1 then "typedef "
      else if b2 then "using " ++ nm ++ " = " else "") = true := by
  split
  · decide
  · split
    · exact cleanS_append2 (cleanS_append2 (by decide) hnm) (by decide)
    · rfl

/-- The scope-closing text has no newline. -/
theorem closing_noNL (n : Nat) :
    countNL (if n > 0 then ";" ++ strConcat (List.replicate n " \x7d")
      else "") = 0 := by
  split
  · rw [countNL_append, braces_noNL]
    rfl
  · rfl

/-- The optional final semicolon has no newline. -/
theorem final_noNL (b : Bool) : countNL (if b then ";" else "") = 0 := by
  split
  · rfl
  · rfl

/-- C6 (amended): every successful c_typedef_gibberish print of a clean
typedef AST ends with exactly one newline, and its output ends in ";\n" —
the terminating semicolon — exactly when the semicolon option is set and
the scope the print ends in is not a namespace (src/src/gibberish.c,
line 1087). -/
theorem claim_C6_typedef_semicolon_newline :
    ∀ fuel opts tdef flags s,
      GAst.cleanB (GTypedef.ast tdef) = true →
      c_typedef_gibberish fuel opts tdef flags = .ok s →
      countNL s = 1 ∧ lastChar s = some '\n' ∧
      (endsSemiNL s = true ↔
        (GOpts.semicolon opts = true ∧
          (c_typedef_scope_info opts tdef).2.2 ≠ TB_NAMESPACE)) := by
  intro fuel opts tdef flags s hast h
  simp only [c_typedef_gibberish] at h
  split at h
  · cases h
  · rename_i body heq
    injection h with h2
    have hbody : cleanS body = true :=
      c_ast_gibberish_impl_clean _ _ _ _ _ hast body heq
    have hsi : cleanS (c_typedef_scope_info opts tdef).1 = true :=
      c_typedef_scope_info_clean opts tdef hast
    have hnm : cleanS
        ((c_ast_find_name_down (GTypedef.ast tdef)).elim ""
          c_sname_local_name) = true := by
      cases hf : c_ast_find_name_down (GTypedef.ast tdef) with
      | none => rfl
      | some sn =>
        simp only [Option.elim]
        exact cleanS_local_name (cleanSN_find_name_down _ _ hast hf)
    refine ⟨?_, ?_, ?_⟩
    · rw [← h2]
      simp only [countNL_append]
      rw [countNL_of_clean hsi, countNL_of_clean (head_clean _ _ hnm),
        countNL_of_clean hbody, closing_noNL, final_noNL]
      decide
    · rw [← h2]
      exact lastChar_append_nl _
    · rw [← h2]
      rw [endsSemiNL_append_nl]
      by_cases hp : (GOpts.semicolon opts = true ∧
          (c_typedef_scope_info opts tdef).2.2 ≠ TB_NAMESPACE)
      · have hcond : (GOpts.semicolon opts &&
            decide ((c_typedef_scope_info opts tdef).2.2 ≠ TB_NAMESPACE)) =
              true := by
          rw [hp.1]
          simp [hp.2]
        rw [if_pos hcond]
        rw [String.data_append]
        refine iff_of_true ?_ hp
        rw [show (";" : String).data = [';'] from rfl,
          List.getLast?_concat]
        rfl
      · have hcond : ¬((GOpts.semicolon opts &&
            decide ((c_typedef_scope_info opts tdef).2.2 ≠ TB_NAMESPACE)) =
              true) := by
          intro hcontra
          simp only [Bool.and_eq_true, decide_eq_true_eq] at hcontra
          exact hp hcontra
        rw [if_neg hcond]
        rw [String.append_empty]
        refine iff_of_false ?_ hp
        intro hcontra
        have hlast : ((c_typedef_scope_info opts tdef).1 ++
            (if flags.tydef &&
              (!(GAst.kind (GTypedef.ast tdef) == GKind.ecsu) ||
                lang_is_any (GTypedef.langIds tdef) LANG_C_ANY ||
                (lang_is_any (GOpts.lang opts) LANG_C_ANY &&
                  !lang_is_any (GTypedef.langIds tdef) LANG_CPP_ANY))
            then "typedef "
            else
              if flags.guse && !(GAst.kind (GTypedef.ast tdef) == GKind.ecsu)
              then "using " ++
                ((c_ast_find_name_down (GTypedef.ast tdef)).elim ""
                  c_sname_local_name) ++ " = "
              else "") ++ body ++
            (if (c_typedef_scope_info opts tdef).2.1 > 0 then
              ";" ++ strConcat
                (List.replicate (c_typedef_scope_info opts tdef).2.1 " \x7d")
            else "")).data.getLast? = some ';' := by
          simpa using hcontra
        by_cases hcl : (c_typedef_scope_info opts tdef).2.1 > 0
        · rw [if_pos hcl] at hlast
          rw [String.data_append] at hlast
          rw [List.getLast?_append_of_ne_nil] at hlast
          · rw [String.data_append] at hlast
            rw [List.getLast?_append_of_ne_nil] at hlast
            · rw [braces_last _ hcl] at hlast
              simp at hlast
            · intro hc2
              have hb := braces_last _ hcl
              rw [hc2] at hb
              cases hb
          · rw [String.data_append]
            simp
        · rw [if_neg hcl] at hlast
          rw [String.append_empty] at hlast
          exact noSemi_getLast
            (cleanS_append2 (cleanS_append2 hsi (head_clean _ _ hnm)) hbody)
            hlast

/-- A concrete successful run for C6: `typedef int J;` at C++17 with the
semicolon option set ends in one newline with the terminating semicolon. -/
theorem claim_C6_typedef_semicolon_newline_witness :
    countNL "typedef int J;\n" = 1 ∧
    lastChar "typedef int J;\n" = some '\n' ∧
    (endsSemiNL "typedef int J;\n" = true ↔
      (GOpts.semicolon ⟨LANG_CPP_17, false, false, .none, true⟩ = true ∧
        (c_typedef_scope_info ⟨LANG_CPP_17, false, false, .none, true⟩
          ⟨GAst.mk .builtin ⟨T_INT, 0, 0⟩ [⟨"J", ⟨0, 0, 0⟩⟩] none [] [] []
            (-1) 0 0 "" .none 0 none, LANG_CPP_17⟩).2.2 ≠ TB_NAMESPACE)) :=
  claim_C6_typedef_semicolon_newline 40
    ⟨LANG_CPP_17, false, false, .none, true⟩
    ⟨GAst.mk .builtin ⟨T_INT, 0, 0⟩ [⟨"J", ⟨0, 0, 0⟩⟩] none [] [] []
      (-1) 0 0 "" .none 0 none, LANG_CPP_17⟩
    ⟨false, false, true, false, false, false⟩ "typedef int J;\n"
    (by decide) (by rfl)

/-- Claim C6's counterexample: a typedef living in a namespace, printed at
C++17 with the semicolon option set, is emitted as
"namespace S { typedef int I; }\n" — the semicolon option is on, yet the
output has no terminating semicolon (the inner one belongs to the scoped
declaration, and the text ends "}\n"): the semicolon-iff-flag sentence
fails without the scope condition of src/src/gibberish.c, line 1087. -/
theorem claim_C6_counterexample :
    c_typedef_gibberish 40 ⟨LANG_CPP_17, false, false, .none, true⟩
        ⟨GAst.mk .builtin ⟨T_INT, 0, 0⟩
          [⟨"S", ⟨TB_NAMESPACE, 0, 0⟩⟩, ⟨"I", ⟨0, 0, 0⟩⟩]
          none [] [] [] (-1) 0 0 "" .none 0 none, LANG_CPP_17⟩
        ⟨false, false, true, false, false, false⟩ =
      .ok "namespace S \x7b typedef int I; \x7d\n" ∧
    GOpts.semicolon ⟨LANG_CPP_17, false, false, .none, true⟩ = true ∧
    endsSemiNL "namespace S \x7b typedef int I; \x7d\n" = false ∧
    lastChar "namespace S \x7b typedef int I; \x7d\n" = some '\n' :=
  ⟨by rfl, rfl, by decide, by decide⟩



/-! Boundary facts of dam_lev_dist (claim C8's easy corner cases; the full
metric equivalence is not settled here). -/

/-- An empty source gives the length of the target. -/
theorem dam_lev_dist_empty_left (t : String) :
    dam_lev_dist "" t = t.length := by
  rfl

/-- An empty target gives the length of the source. -/
theorem dam_lev_dist_empty_right (s : String) :
    dam_lev_dist s "" = s.length := by
  cases s with
  | mk data =>
    cases data with
    | nil => rfl
    | cons c cs => rfl

end Cdecl
